import Mathlib

/-! Slug-keyed field updaters.

A shallow embedding of the two command-line programs of the repository,
`main.go` (application link) and `update_regional_youtube/main.go` (regional
video link), together with the fragment of the document store they talk to.

The programs are sequential scripts.  One run is a function from the world the
process starts in (environment file, process environment, store contents and
the failures the driver reports) and the argument list to what the process
leaves behind: the lines written, the store operations attempted, the exit
status and the store contents.
-/

set_option autoImplicit false

namespace GoScripts

/-! ## Documents -/

/-- A decoded BSON value, as it appears behind `interface{}` in a `bson.M`.
Only strings and embedded documents are ever inspected by the programs; the
other constructors stand for values of every other dynamic type. -/
inductive BVal where
  | str (s : String)
  | int (n : Int)
  | bool (b : Bool)
  | null
  | objectID (hex : String)
  | arr (xs : List BVal)
  | doc (fs : List (String × BVal))

/-- A `bson.M`: field names bound to values.  A field name is bound at most
once in a stored document; reading takes the first binding. -/
abbrev Doc := List (String × BVal)

/-- Map indexing `m[k]`; `none` is the nil interface of a missing key. -/
def lookup (k : String) : Doc → Option BVal
  | [] => none
  | (k', v) :: rest => if k' = k then some v else lookup k rest

/-- Rebinding of an existing field, in place. -/
def replace (k : String) (v : BVal) : Doc → Doc
  | [] => []
  | (k', v') :: rest => if k' = k then (k, v) :: rest else (k', v') :: replace k v rest

/-- The hardcoded identifier preferred among several matches. -/
def priorityID : String := "775a846c8c5442458ea4860111b28c57"

/-! ## The document store -/

/-- Components of a dotted field path, read left to right; `cur` holds the
characters of the component being read, last one first. -/
def splitDots : List Char → List Char → List String
  | [], cur => [String.mk cur.reverse]
  | c :: cs, cur =>
    if c = '.' then String.mk cur.reverse :: splitDots cs [] else splitDots cs (c :: cur)

/-- The store reads a key of `$set` as a dot-separated path. -/
def fieldPath (key : String) : List String := splitDots key.toList []

/-- Value found at a path of embedded documents. -/
def getPath : List String → Doc → Option BVal
  | [], _ => none
  | [k], d => lookup k d
  | k :: k2 :: ks, d =>
    match lookup k d with
    | some (.doc sub) => getPath (k2 :: ks) sub
    | _ => none

/-- Embedded documents created for the part of a path that does not exist yet. -/
def nest : List String → BVal → BVal
  | [], v => v
  | k :: ks, v => .doc [(k, nest ks v)]

/-- Store semantics of `$set` on a dotted path: missing fields are created,
an existing leaf is overwritten, and a value on the way that is not an embedded
document makes the path not viable (`none`, the store reports an error). -/
def setPath : List String → BVal → Doc → Option Doc
  | [], _, _ => none
  | [k], v, d =>
    match lookup k d with
    | some _ => some (replace k v d)
    | none => some (d ++ [(k, v)])
  | k :: k2 :: ks, v, d =>
    match lookup k d with
    | some (.doc sub) => (setPath (k2 :: ks) v sub).map (fun sub' => replace k (.doc sub') d)
    | some _ => none
    | none => some (d ++ [(k, nest (k2 :: ks) v)])

/-- Whether the path `q` leaves the path `p` at some component: neither is the
other continued. -/
def diverges : List String → List String → Bool
  | a :: q, b :: p => a != b || diverges q p
  | _, _ => false

/-- Fields other than `data` are the same in both documents. -/
def SameOutsideData (d d' : Doc) : Prop := ∀ k, k ≠ "data" → lookup k d' = lookup k d

/-- Equality match of a query against a field value: the value itself, or an
element of an array value. -/
def matchesValue (slug : String) : BVal → Bool
  | .str s => s == slug
  | .arr xs => xs.any (fun x => match x with | .str s => s == slug | _ => false)
  | _ => false

/-- Equality match on a field of a document. -/
def fieldMatches (slug : String) (d : Doc) : Bool :=
  match lookup "slug" d with
  | some v => matchesValue slug v
  | none => false

/-- The query of both programs,
`$or: [ "filter.slug": slug, "slug": slug ]`, against one document. -/
def matchesSlug (slug : String) (d : Doc) : Bool :=
  (match lookup "filter" d with
    | some (.doc fs) => fieldMatches slug fs
    | some (.arr xs) => xs.any (fun x => match x with | .doc fs => fieldMatches slug fs | _ => false)
    | _ => false)
  || fieldMatches slug d

/-- Whether the `_id` of a document is the string `id`: the filter `_id: id` of
the store, and the comparison `doc["_id"] == id` of an interface value with a
string. -/
def hasID (id : String) (d : Doc) : Bool :=
  match lookup "_id" d with
  | some (.str s) => s == id
  | _ => false

/-- Whether the field at `path` already holds the string `link`. -/
def holds (path : List String) (link : String) (d : Doc) : Bool :=
  match getPath path d with
  | some (.str s) => s == link
  | _ => false

/-- `Find`: the matching documents, in store order. -/
def storeFind (slug : String) (store : List Doc) : List Doc :=
  store.filter (matchesSlug slug)

/-- `UpdateOne` with filter `_id: id` and update `$set: key: link`.  The first
document with that identifier is updated.  The result is `none` when the store
rejects the update, otherwise the modified count and the new contents; a field
that already holds the value is left alone and counts as not modified. -/
def storeUpdateOne (id key link : String) : List Doc → Option (Nat × List Doc)
  | [] => some (0, [])
  | d :: rest =>
    if hasID id d then
      if holds (fieldPath key) link d then some (0, d :: rest)
      else (setPath (fieldPath key) (.str link) d).map (fun d' => (1, d' :: rest))
    else (storeUpdateOne id key link rest).map (fun r => (r.1, d :: r.2))

/-- `FindOne` with filter `_id: id`; `none` when no document matches. -/
def storeFindOne (id : String) (store : List Doc) : Option Doc :=
  store.find? (hasID id)

/-! ## Processes -/

/-- A line written by the process. -/
inductive Out where
  /-- A line on standard output (`fmt.Println`, `fmt.Printf`). -/
  | print (s : String)
  /-- A line of the `log` package; the text of a wrapped error is left out. -/
  | log (s : String)
  /-- The report of a run-time panic. -/
  | crash (s : String)
  deriving DecidableEq

/-- A store operation attempted by the process. -/
inductive Event where
  | connect (uri : String)
  | find (filter : Doc)
  | cursorAll
  | cursorClose
  | updateOne (filter : Doc) (update : Doc)
  | findOne (filter : Doc)
  | disconnect

/-- Errors the driver reports for reasons outside the documents themselves. -/
structure Faults where
  connectErr : Bool
  findErr : Bool
  decodeErr : Bool
  updateErr : Bool
  findOneErr : Bool
  disconnectErr : Bool

/-- The file `.env` in the working directory, as `godotenv.Load` meets it:
absent, not parseable, or its bindings line by line in file order (a variable
may be bound on several lines). -/
inductive DotenvFile where
  | missing
  | malformed
  | entries (kvs : List (String × String))

/-- What a process starts in. -/
structure World where
  envFile : DotenvFile
  environ : List (String × String)
  faults : Faults
  store : List Doc

/-- What a process leaves behind. -/
structure Result where
  out : List Out
  trace : List Event
  status : Nat
  store : List Doc

/-- Binding of a variable in an environment. -/
def envLookup (k : String) : List (String × String) → Option String
  | [] => none
  | (k', v) :: rest => if k' = k then some v else envLookup k rest

/-- `os.Getenv`: the empty string for a variable that is not set. -/
def getenv (k : String) (env : List (String × String)) : String :=
  (envLookup k env).getD ""

/-- `godotenv.Load()` of the library: fails when `.env` cannot be opened or
parsed; otherwise defines every variable of the file that the process
environment does not define already.  The library parses the file into a map,
so of several lines binding one variable the last one counts: the lines are
taken last to first, where `envLookup` meets the last line first. -/
def godotenvLoad : DotenvFile → List (String × String) → Option (List (String × String))
  | .missing, _ => none
  | .malformed, _ => none
  | .entries kvs, env =>
    some (env ++ kvs.reverse.filter (fun kv => (envLookup kv.1 env).isNone))

/-- The filter of `Find`. -/
def slugFilter (slug : String) : Doc :=
  [("$or", .arr [.doc [("filter.slug", .str slug)], .doc [("slug", .str slug)]])]

/-- The filter of `UpdateOne` and `FindOne`. -/
def idFilter (targetID : String) : Doc := [("_id", .str targetID)]

/-- The update document: one `$set` with one entry. -/
def setUpdate (key link : String) : Doc := [("$set", .doc [(key, .str link)])]

/-- How `fmt.Println` shows the update document. -/
def showUpdate (key link : String) : String :=
  "map[$set:map[" ++ key ++ ":" ++ link ++ "]]"

/-- The loop over `docs` that looks for the priority identifier: the first
document whose `_id` is that string. -/
def findPriority : List Doc → Option Doc
  | [] => none
  | doc :: rest =>
    if hasID priorityID doc then some doc else findPriority rest

/-- Target resolution: the document with the priority identifier, else the
first one; `none` is the nil `targetDoc`. -/
def selectTarget (docs : List Doc) : Option Doc :=
  match findPriority docs with
  | some doc => some doc
  | none => docs.head?

/-- The deferred function: disconnect, then report. -/
def deferredClose (f : Faults) : List Out :=
  (if f.disconnectErr then [Out.log "Error closing MongoDB connection"] else [])
    ++ [Out.print "\nMongoDB connection closed"]

/-- The nested type assertions of the verification step. -/
def verifyRead (k2 k3 k4 : String) (updatedDoc : Doc) : String :=
  match lookup "data" updatedDoc with
  | some (.doc data) =>
    match lookup k2 data with
    | some (.doc en) =>
      match lookup k3 en with
      | some (.doc appLink) =>
        match lookup k4 appLink with
        | some (.str val) => val
        | _ => "Not found"
      | _ => "Not found"
    | _ => "Not found"
  | _ => "Not found"

/-- What differs between the two programs after argument validation. -/
structure Variant where
  /-- The key of the `$set` entry. -/
  key : String
  /-- The keys read below `data` by the verification step. -/
  k2 : String
  k3 : String
  k4 : String
  /-- The heading of the verification step. -/
  heading : String
  /-- The label of the verified value. -/
  label : String

/-- Both programs from `mongo.Connect` to the end of `main`.  `pre` is what the
process has written so far. -/
def session (v : Variant) (mongoURI : String) (f : Faults) (store : List Doc)
    (slug link : String) (pre : List Out) : Result :=
  if f.connectErr then
    ⟨pre ++ [.log "Failed to connect to MongoDB"], [.connect mongoURI], 1, store⟩
  else if f.findErr then
    ⟨pre ++ [.print "Connected to MongoDB", .log "Error querying documents"],
      [.connect mongoURI, .find (slugFilter slug)], 1, store⟩
  else if f.decodeErr then
    ⟨pre ++ [.print "Connected to MongoDB", .log "Error decoding documents"],
      [.connect mongoURI, .find (slugFilter slug), .cursorAll], 1, store⟩
  else
    let docs := storeFind slug store
    let found := [Event.connect mongoURI, .find (slugFilter slug), .cursorAll]
    if docs.length = 0 then
      ⟨pre ++ [.print "Connected to MongoDB", .print ("No documents found with slug: " ++ slug)]
          ++ deferredClose f,
        found ++ [.cursorClose, .disconnect], 0, store⟩
    else
      let out := pre ++ [.print "Connected to MongoDB",
        .print ("Found " ++ toString docs.length ++ " document(s) with slug: " ++ slug)]
      match selectTarget docs with
      | none =>
        ⟨out ++ [.print "Could not find a valid document to update"] ++ deferredClose f,
          found ++ [.cursorClose, .disconnect], 0, store⟩
      | some targetDoc =>
        match lookup "_id" targetDoc with
        | some (.str targetID) =>
          let out := out ++ [.print ("Selected document with ID: " ++ targetID),
            .print ("Applying update: " ++ showUpdate v.key link)]
          let updated := found ++ [.updateOne (idFilter targetID) (setUpdate v.key link)]
          if f.updateErr then
            ⟨out ++ [.log "Error updating document"], updated, 1, store⟩
          else
            match storeUpdateOne targetID v.key link store with
            | none => ⟨out ++ [.log "Error updating document"], updated, 1, store⟩
            | some (modifiedCount, store') =>
              let out := out ++ [if modifiedCount > 0
                then .print ("Successfully updated document with ID: " ++ targetID)
                else .print "Document found but no changes were made"]
              let fetched := updated ++ [.findOne (idFilter targetID)]
              if f.findOneErr then
                ⟨out ++ [.log "Error verifying update"], fetched, 1, store'⟩
              else
                match storeFindOne targetID store' with
                | none => ⟨out ++ [.log "Error verifying update"], fetched, 1, store'⟩
                | some updatedDoc =>
                  ⟨out ++ [.print v.heading,
                      .print (v.label ++ verifyRead v.k2 v.k3 v.k4 updatedDoc)]
                      ++ deferredClose f,
                    fetched ++ [.cursorClose, .disconnect], 0, store'⟩
        | _ =>
          -- the type assertion to string panics; deferred calls run
          ⟨out ++ deferredClose f ++ [.crash "panic: interface conversion"],
            found ++ [.cursorClose, .disconnect], 2, store⟩

/-- The first steps of both programs: load `.env`, read `MONGO_URI`.  The
result is the line of the fatal log, or the connection string. -/
def loadConfig (w : World) : Except Out String :=
  match godotenvLoad w.envFile w.environ with
  | none => .error (.log "Error loading .env file")
  | some env =>
    let mongoURI := getenv "MONGO_URI" env
    if mongoURI = "" then .error (.log "MONGO_URI not set in .env file") else .ok mongoURI

/-- The guard that sends both programs to their usage text. -/
def wantsUsage (args : List String) (n : Nat) : Bool :=
  args.length == 0 || args.head? == some "-h" || args.head? == some "--help" || args.length < n

/-- Process end through a usage function: the text, then `os.Exit(1)`. -/
def exitUsage (usage : String) (pre : List Out) (store : List Doc) : Result :=
  ⟨pre ++ [.print usage], [], 1, store⟩

namespace UpdateApplicationLink

/-- The text printed by `displayUsage`. -/
def usageText : String :=
  "\nUsage: go run updateApplicationLink.go <slug> <application_link>\n\nExample:\ngo run updateApplicationLink.go fpktnk.json https://new-link.com\n\nParameters:\n  - slug: Required. The unique identifier for the document (e.g., fpktnk.json)\n  - application_link: Required. The new URL for the application link\n"

/-- Function `displayUsage`. -/
def displayUsage (pre : List Out) (store : List Doc) : Result :=
  exitUsage usageText pre store

/-- The application-link program after argument validation. -/
def variant : Variant :=
  ⟨"data.en.application_link.value", "en", "application_link", "value",
    "\nVerifying update - Application Link after update:", "en.application_link.value: "⟩

/-- Function `main` from the command-line arguments on. -/
def mainArgs (mongoURI : String) (w : World) (args : List String) : Result :=
  if wantsUsage args 2 then displayUsage [] w.store
  else
    let slug := args.getD 0 ""
    let applicationLink := args.getD 1 ""
    if slug = "" ∨ applicationLink = "" then
      displayUsage [.log "Error: Slug and application link are required"] w.store
    else
      session variant mongoURI w.faults w.store slug applicationLink
        [.print ("Processing slug: " ++ slug), .print ("New application link: " ++ applicationLink)]

/-- Function `main` of `main.go`. -/
def main (w : World) (args : List String) : Result :=
  match loadConfig w with
  | .error line => ⟨[line], [], 1, w.store⟩
  | .ok mongoURI => mainArgs mongoURI w args

end UpdateApplicationLink

namespace UpdateRegionalYoutube

/-- The text printed by `displayRegionalYouTubeUsage`. -/
def usageText : String :=
  "\nUsage: go run main.go <language> <slug> <youtube_link>\n\nExample:\ncd update_regional_youtube && go run main.go ta fpktnk.json https://www.youtube.com/watch?v=example\n\nParameters:\n  - language: Required. The language code (e.g., te, as, kok, gu, ml, mr, mni, lus, or, pa, ta, bn, ks, kn)\n  - slug: Required. The unique identifier for the document (e.g., fpktnk.json)\n  - youtube_link: Required. The new YouTube video link\n\nSupported language codes:\n  - te: Telugu\n  - as: Assamese\n  - kok: Konkani\n  - gu: Gujarati\n  - ml: Malayalam\n  - mr: Marathi\n  - mni: Manipuri\n  - lus: Mizo\n  - or: Odia\n  - pa: Punjabi\n  - ta: Tamil\n  - bn: Bengali\n  - ks: Kashmiri\n  - kn: Kannada\n"

/-- Function `displayRegionalYouTubeUsage`. -/
def displayRegionalYouTubeUsage (pre : List Out) (store : List Doc) : Result :=
  exitUsage usageText pre store

/-- The map `validLanguages`. -/
def validLanguages : List (String × String) :=
  [("te", "Telugu"), ("as", "Assamese"), ("kok", "Konkani"), ("gu", "Gujarati"),
   ("ml", "Malayalam"), ("mr", "Marathi"), ("mni", "Manipuri"), ("lus", "Mizo"),
   ("or", "Odia"), ("pa", "Punjabi"), ("ta", "Tamil"), ("bn", "Bengali"),
   ("ks", "Kashmiri"), ("kn", "Kannada")]

/-- The key built by `fmt.Sprintf("data.%s.media.video", language)`. -/
def videoKey (language : String) : String := "data." ++ language ++ ".media.video"

/-- The regional program after argument validation. -/
def variant (language : String) : Variant :=
  ⟨videoKey language, language, "media", "video",
    "\nVerifying update - YouTube link after update:", language ++ ".media.video: "⟩

/-- Function `main` from the command-line arguments on. -/
def mainArgs (mongoURI : String) (w : World) (args : List String) : Result :=
  if wantsUsage args 3 then displayRegionalYouTubeUsage [] w.store
  else
    let language := args.getD 0 ""
    let slug := args.getD 1 ""
    let youtubeLink := args.getD 2 ""
    match envLookup language validLanguages with
    | none =>
      displayRegionalYouTubeUsage
        [.log ("Error: Invalid language code '" ++ language ++ "'")] w.store
    | some langName =>
      if slug = "" ∨ youtubeLink = "" then
        displayRegionalYouTubeUsage [.log "Error: Slug and YouTube link are required"] w.store
      else
        session (variant language) mongoURI w.faults w.store slug youtubeLink
          [.print ("Processing language: " ++ language ++ " (" ++ langName ++ ")"),
           .print ("Processing slug: " ++ slug),
           .print ("New YouTube link: " ++ youtubeLink)]

/-- Function `main` of `update_regional_youtube/main.go`. -/
def main (w : World) (args : List String) : Result :=
  match loadConfig w with
  | .error line => ⟨[line], [], 1, w.store⟩
  | .ok mongoURI => mainArgs mongoURI w args

end UpdateRegionalYoutube

/-! ## A small world to run the programs in -/

namespace Sample

/-- A driver that reports no error. -/
def noFaults : Faults := ⟨false, false, false, false, false, false⟩

/-- A collection with a plain record, a record under an object identifier, a
record whose `data` is not a document, and two records sharing a slug. -/
def store : List Doc :=
  [[("_id", .str "a1"), ("slug", .str "fpktnk.json"),
    ("data", .doc [("en", .doc [("application_link",
      .doc [("value", .str "https://old-link.com")])])])],
   [("_id", .objectID "65f0c0ffee65f0c0ffee65f0"),
    ("filter", .doc [("slug", .str "objid.json")])],
   [("_id", .str "b2"), ("slug", .str "flat.json"), ("data", .str "x")],
   [("_id", .str "c3"), ("slug", .str "dup.json")],
   [("_id", .str priorityID), ("filter", .doc [("slug", .str "dup.json")])]]

/-- The records of the sample collection with slug `dup.json`, in store order. -/
def dupDocs : List Doc :=
  [[("_id", .str "c3"), ("slug", .str "dup.json")],
   [("_id", .str priorityID), ("filter", .doc [("slug", .str "dup.json")])]]

/-- The connection string of the sample world. -/
def uri : String := "mongodb://localhost:27017"

/-- A world with an environment file that defines the connection string. -/
def world : World := ⟨.entries [("MONGO_URI", uri)], [], noFaults, store⟩

/-- A world without environment file, the connection string set in the process
environment. -/
def worldNoFile : World := ⟨.missing, [("MONGO_URI", uri)], noFaults, store⟩

/-- A world whose environment file binds the connection string twice, first to
the empty string. -/
def worldTwice : World := ⟨.entries [("MONGO_URI", ""), ("MONGO_URI", uri)], [], noFaults, store⟩

/-- The sample world with a driver that reports the given errors. -/
def worldWith (f : Faults) : World := ⟨.entries [("MONGO_URI", uri)], [], f, store⟩

end Sample

/-! ## Documents: basic facts -/

theorem hasID_iff (id : String) (d : Doc) :
    hasID id d = true ↔ lookup "_id" d = some (.str id) := by
  unfold hasID
  split
  · next s h => simp [h]
  · next h =>
    constructor
    · intro hf; exact absurd hf (by simp)
    · intro hl; exact absurd hl (h id)

theorem findPriority_some {docs : List Doc} {t : Doc} (h : findPriority docs = some t) :
    t ∈ docs ∧ hasID priorityID t = true := by
  induction docs with
  | nil => simp [findPriority] at h
  | cons d rest ih =>
    unfold findPriority at h
    by_cases hd : hasID priorityID d = true
    · simp [hd] at h
      subst h
      exact ⟨List.mem_cons_self _ _, hd⟩
    · simp [hd] at h
      exact ⟨List.mem_cons_of_mem _ (ih h).1, (ih h).2⟩

theorem findPriority_none {docs : List Doc} (h : findPriority docs = none) :
    ∀ d ∈ docs, hasID priorityID d = false := by
  induction docs with
  | nil => simp
  | cons d rest ih =>
    unfold findPriority at h
    by_cases hd : hasID priorityID d = true
    · simp [hd] at h
    · simp [hd] at h
      intro x hx
      rcases List.mem_cons.mp hx with rfl | hx
      · simpa using hd
      · exact ih h x hx

theorem findPriority_isSome {docs : List Doc} (h : ∃ d ∈ docs, hasID priorityID d = true) :
    ∃ t, findPriority docs = some t := by
  cases hf : findPriority docs with
  | some t => exact ⟨t, rfl⟩
  | none =>
    obtain ⟨d, hd, hid⟩ := h
    have := findPriority_none hf d hd
    simp [hid] at this

/-! ## Target resolution -/

/-- The identifier under which the chosen target is updated: `targetDoc["_id"]`. -/
theorem selectTarget_of_mem_priority (docs : List Doc)
    (h : ∃ d ∈ docs, lookup "_id" d = some (.str priorityID)) :
    ∃ t, t ∈ docs ∧ findPriority docs = some t ∧ selectTarget docs = some t ∧
      lookup "_id" t = some (.str priorityID) := by
  obtain ⟨d, hd, hid⟩ := h
  obtain ⟨t, ht⟩ := findPriority_isSome ⟨d, hd, (hasID_iff _ _).mpr hid⟩
  have hp := findPriority_some ht
  exact ⟨t, hp.1, ht, by simp [selectTarget, ht], (hasID_iff _ _).mp hp.2⟩

/-! ## Runs of the shared part -/

/-- The run in which every step succeeds. -/
theorem session_success {v : Variant} {mongoURI : String} {f : Faults} {store : List Doc}
    {slug link : String} {pre : List Out} {t : Doc} {id : String} {n : Nat}
    {store' : List Doc} {d' : Doc}
    (hc : f.connectErr = false) (hf : f.findErr = false) (hd : f.decodeErr = false)
    (hne : (storeFind slug store).length ≠ 0)
    (hsel : selectTarget (storeFind slug store) = some t)
    (hid : lookup "_id" t = some (.str id))
    (hu : f.updateErr = false)
    (hup : storeUpdateOne id v.key link store = some (n, store'))
    (hfo : f.findOneErr = false)
    (hfind : storeFindOne id store' = some d') :
    session v mongoURI f store slug link pre =
      ⟨pre ++ [.print "Connected to MongoDB",
          .print ("Found " ++ toString (storeFind slug store).length
            ++ " document(s) with slug: " ++ slug)]
        ++ [.print ("Selected document with ID: " ++ id),
          .print ("Applying update: " ++ showUpdate v.key link)]
        ++ [if n > 0 then .print ("Successfully updated document with ID: " ++ id)
          else .print "Document found but no changes were made"]
        ++ [.print v.heading, .print (v.label ++ verifyRead v.k2 v.k3 v.k4 d')]
        ++ deferredClose f,
       [.connect mongoURI, .find (slugFilter slug), .cursorAll]
        ++ [.updateOne (idFilter id) (setUpdate v.key link)]
        ++ [.findOne (idFilter id)] ++ [.cursorClose, .disconnect],
       0, store'⟩ := by
  simp [session, hc, hf, hd, hne, hsel, hid, hu, hup, hfo, hfind]

/-- A run that found a document and ended with status 0 went through every
step. -/
theorem session_status_zero {v : Variant} {mongoURI : String} {f : Faults} {store : List Doc}
    {slug link : String} {pre : List Out}
    (hne : (storeFind slug store).length ≠ 0)
    (h0 : (session v mongoURI f store slug link pre).status = 0) :
    ∃ t id n store' d',
      f.connectErr = false ∧ f.findErr = false ∧ f.decodeErr = false ∧
      selectTarget (storeFind slug store) = some t ∧
      lookup "_id" t = some (.str id) ∧
      f.updateErr = false ∧
      storeUpdateOne id v.key link store = some (n, store') ∧
      f.findOneErr = false ∧
      storeFindOne id store' = some d' := by
  unfold session at h0
  cases hc : f.connectErr
  case true => simp [hc] at h0
  cases hf : f.findErr
  case true => simp [hc, hf] at h0
  cases hd : f.decodeErr
  case true => simp [hc, hf, hd] at h0
  have hsome : ∃ t, selectTarget (storeFind slug store) = some t := by
    cases hs : storeFind slug store with
    | nil => simp [hs] at hne
    | cons a l =>
      cases hp : findPriority (a :: l) with
      | none => exact ⟨a, by simp [selectTarget, hp]⟩
      | some t => exact ⟨t, by simp [selectTarget, hp]⟩
  obtain ⟨t, hsel⟩ := hsome
  simp only [hc, hf, hd, hne, hsel] at h0
  cases hid : lookup "_id" t with
  | none => simp [hid] at h0
  | some x =>
    cases x with
    | str id =>
      simp only [hid] at h0
      cases hu : f.updateErr
      case true => simp [hu] at h0
      cases hup : storeUpdateOne id v.key link store with
      | none => simp [hu, hup] at h0
      | some r =>
        obtain ⟨n, store'⟩ := r
        cases hfo : f.findOneErr
        case true => simp [hu, hup, hfo] at h0
        cases hfind : storeFindOne id store' with
        | none => simp [hu, hup, hfo, hfind] at h0
        | some d' => exact ⟨t, id, n, store', d', rfl, rfl, rfl, hsel, hid, rfl, hup, rfl, hfind⟩
    | _ => simp [hid] at h0

/-! ## From `main` to the shared part -/

theorem appMain_of_config {w : World} {mongoURI : String}
    (hcfg : loadConfig w = .ok mongoURI) (args : List String) :
    UpdateApplicationLink.main w args = UpdateApplicationLink.mainArgs mongoURI w args := by
  simp [UpdateApplicationLink.main, hcfg]

theorem regionalMain_of_config {w : World} {mongoURI : String}
    (hcfg : loadConfig w = .ok mongoURI) (args : List String) :
    UpdateRegionalYoutube.main w args = UpdateRegionalYoutube.mainArgs mongoURI w args := by
  simp [UpdateRegionalYoutube.main, hcfg]

/-- Accepted arguments of the application-link program lead to the store. -/
theorem appMainArgs_session {w : World} {mongoURI : String}
    {args : List String} (hargs : wantsUsage args 2 = false)
    (hslug : args.getD 0 "" ≠ "") (hlink : args.getD 1 "" ≠ "") :
    UpdateApplicationLink.mainArgs mongoURI w args =
      session UpdateApplicationLink.variant mongoURI w.faults w.store
        (args.getD 0 "") (args.getD 1 "")
        [.print ("Processing slug: " ++ args.getD 0 ""),
         .print ("New application link: " ++ args.getD 1 "")] := by
  simp only [UpdateApplicationLink.mainArgs, hargs, hslug, hlink, or_self, if_false,
    Bool.false_eq_true]

/-- Accepted arguments of the regional program lead to the store. -/
theorem regionalMainArgs_session {w : World} {mongoURI : String}
    {args : List String} {langName : String} (hargs : wantsUsage args 3 = false)
    (hlang : envLookup (args.getD 0 "") UpdateRegionalYoutube.validLanguages = some langName)
    (hslug : args.getD 1 "" ≠ "") (hlink : args.getD 2 "" ≠ "") :
    UpdateRegionalYoutube.mainArgs mongoURI w args =
      session (UpdateRegionalYoutube.variant (args.getD 0 "")) mongoURI w.faults w.store
        (args.getD 1 "") (args.getD 2 "")
        [.print ("Processing language: " ++ args.getD 0 "" ++ " (" ++ langName ++ ")"),
         .print ("Processing slug: " ++ args.getD 1 ""),
         .print ("New YouTube link: " ++ args.getD 2 "")] := by
  simp only [UpdateRegionalYoutube.mainArgs, hargs, hlang, hslug, hlink, or_self, if_false,
    Bool.false_eq_true]

/-- The run of the shared part whose query finds nothing. -/
theorem session_not_found {v : Variant} {mongoURI : String} {f : Faults} {store : List Doc}
    {slug link : String} {pre : List Out}
    (hc : f.connectErr = false) (hf : f.findErr = false) (hd : f.decodeErr = false)
    (hnone : storeFind slug store = []) :
    session v mongoURI f store slug link pre =
      ⟨pre ++ [.print "Connected to MongoDB", .print ("No documents found with slug: " ++ slug)]
          ++ deferredClose f,
        [.connect mongoURI, .find (slugFilter slug), .cursorAll, .cursorClose, .disconnect],
        0, store⟩ := by
  simp [session, hc, hf, hd, hnone]

/-! ## No matching record -/

/-- C3. Both programs, once configured and connected: when the query for the
slug returns no record, the run prints the line "No documents found with slug:"
followed by the slug, ends with status 0 after the deferred close, attempts
neither `UpdateOne` nor `FindOne`, and leaves the store as it was. -/
theorem no_match_exits_cleanly (w : World) (mongoURI : String)
    (hcfg : loadConfig w = .ok mongoURI)
    (hc : w.faults.connectErr = false) (hf : w.faults.findErr = false)
    (hd : w.faults.decodeErr = false) :
    (∀ args : List String, wantsUsage args 2 = false →
      args.getD 0 "" ≠ "" → args.getD 1 "" ≠ "" →
      storeFind (args.getD 0 "") w.store = [] →
      UpdateApplicationLink.main w args =
        ⟨[.print ("Processing slug: " ++ args.getD 0 ""),
            .print ("New application link: " ++ args.getD 1 ""),
            .print "Connected to MongoDB",
            .print ("No documents found with slug: " ++ args.getD 0 "")]
            ++ deferredClose w.faults,
          [.connect mongoURI, .find (slugFilter (args.getD 0 "")), .cursorAll,
            .cursorClose, .disconnect],
          0, w.store⟩) ∧
    (∀ (args : List String) (langName : String), wantsUsage args 3 = false →
      envLookup (args.getD 0 "") UpdateRegionalYoutube.validLanguages = some langName →
      args.getD 1 "" ≠ "" → args.getD 2 "" ≠ "" →
      storeFind (args.getD 1 "") w.store = [] →
      UpdateRegionalYoutube.main w args =
        ⟨[.print ("Processing language: " ++ args.getD 0 "" ++ " (" ++ langName ++ ")"),
            .print ("Processing slug: " ++ args.getD 1 ""),
            .print ("New YouTube link: " ++ args.getD 2 ""),
            .print "Connected to MongoDB",
            .print ("No documents found with slug: " ++ args.getD 1 "")]
            ++ deferredClose w.faults,
          [.connect mongoURI, .find (slugFilter (args.getD 1 "")), .cursorAll,
            .cursorClose, .disconnect],
          0, w.store⟩) := by
  constructor
  · intro args hargs hslug hlink hnone
    rw [appMain_of_config hcfg,
      appMainArgs_session hargs hslug hlink,
      session_not_found hc hf hd hnone]
    rfl
  · intro args langName hargs hlang hslug hlink hnone
    rw [regionalMain_of_config hcfg,
      regionalMainArgs_session hargs hlang hslug hlink,
      session_not_found hc hf hd hnone]
    rfl

/-- The sample world has no record for the slug `missing.json`: both programs
stop after the query. -/
theorem no_match_exits_cleanly_witness :
    loadConfig Sample.world = .ok Sample.uri ∧
    storeFind "missing.json" Sample.world.store = [] ∧
    (UpdateApplicationLink.main Sample.world ["missing.json", "https://new-link.com"]).trace =
      [.connect Sample.uri, .find (slugFilter "missing.json"), .cursorAll,
        .cursorClose, .disconnect] ∧
    (UpdateRegionalYoutube.main Sample.world
      ["ta", "missing.json", "https://www.youtube.com/watch?v=example"]).status = 0 := by
  have h := no_match_exits_cleanly Sample.world Sample.uri rfl rfl rfl rfl
  refine ⟨rfl, rfl, ?_, ?_⟩
  · rw [h.1 ["missing.json", "https://new-link.com"] rfl (by decide) (by decide) rfl]
    rfl
  · rw [h.2 ["ta", "missing.json", "https://www.youtube.com/watch?v=example"] "Tamil"
      rfl rfl (by decide) (by decide) rfl]

/-! ## Argument validation -/

theorem envLookup_isSome_iff (k : String) (l : List (String × String)) :
    (∃ v, envLookup k l = some v) ↔ k ∈ l.map Prod.fst := by
  induction l with
  | nil => simp [envLookup]
  | cons p rest ih =>
    obtain ⟨k', v'⟩ := p
    by_cases hk : k' = k
    · simp [envLookup, hk]
    · have hk' : ¬ k = k' := fun h => hk h.symm
      simp [envLookup, hk, hk', ih]

theorem envLookup_none_iff (k : String) (l : List (String × String)) :
    envLookup k l = none ↔ k ∉ l.map Prod.fst := by
  rw [← envLookup_isSome_iff]
  cases envLookup k l <;> simp

theorem wantsUsage_false_iff (args : List String) (n : Nat) (hn : 0 < n) :
    wantsUsage args n = false ↔
      n ≤ args.length ∧ args.head? ≠ some "-h" ∧ args.head? ≠ some "--help" := by
  simp only [wantsUsage, Bool.or_eq_false_iff, beq_eq_false_iff_ne, decide_eq_false_iff_not,
    not_lt, ne_eq]
  constructor
  · rintro ⟨⟨⟨_, h1⟩, h2⟩, h3⟩
    exact ⟨h3, h1, h2⟩
  · rintro ⟨h3, h1, h2⟩
    exact ⟨⟨⟨by omega, h1⟩, h2⟩, h3⟩

/-- C2, as stated, fails: with no environment file, three arguments and the
language code `xx`, the regional program ends in the fatal log of the load
before it reads its arguments; the usage text is not printed. -/
theorem invalid_language_without_env_file :
    UpdateRegionalYoutube.main Sample.worldNoFile
      ["xx", "fpktnk.json", "https://www.youtube.com/watch?v=example"] =
      ⟨[.log "Error loading .env file"], [], 1, Sample.worldNoFile.store⟩ ∧
    Out.print UpdateRegionalYoutube.usageText ∉
      (UpdateRegionalYoutube.main Sample.worldNoFile
        ["xx", "fpktnk.json", "https://www.youtube.com/watch?v=example"]).out :=
  ⟨rfl, by
    rw [show (UpdateRegionalYoutube.main Sample.worldNoFile
        ["xx", "fpktnk.json", "https://www.youtube.com/watch?v=example"]).out =
      [.log "Error loading .env file"] from rfl]
    simp⟩

/-- C2, amended. Regional program, on at least three arguments whose first is
not a help flag: the language code (first argument) is found in `validLanguages`
exactly when it is one of the fourteen codes.  For a code outside the list the
run ends with status 1 and no store operation attempted, and, configuration
loaded, it consists of the log of the invalid code and the usage text.  For a
code of the list the configured run goes on to the check of slug and link and
from there to the store. -/
theorem language_validation (w : World) (args : List String)
    (hlen : 3 ≤ args.length)
    (hh : args.head? ≠ some "-h") (hhelp : args.head? ≠ some "--help") :
    ((∃ langName, envLookup (args.getD 0 "") UpdateRegionalYoutube.validLanguages
        = some langName) ↔
      args.getD 0 "" ∈ ["te", "as", "kok", "gu", "ml", "mr", "mni", "lus", "or", "pa", "ta",
        "bn", "ks", "kn"]) ∧
    (args.getD 0 "" ∉ ["te", "as", "kok", "gu", "ml", "mr", "mni", "lus", "or", "pa", "ta",
        "bn", "ks", "kn"] →
      (UpdateRegionalYoutube.main w args).trace = [] ∧
      (UpdateRegionalYoutube.main w args).status = 1 ∧
      (UpdateRegionalYoutube.main w args).store = w.store ∧
      ∀ mongoURI, loadConfig w = .ok mongoURI →
        UpdateRegionalYoutube.main w args =
          ⟨[.log ("Error: Invalid language code '" ++ args.getD 0 "" ++ "'"),
            .print UpdateRegionalYoutube.usageText], [], 1, w.store⟩) ∧
    (args.getD 0 "" ∈ ["te", "as", "kok", "gu", "ml", "mr", "mni", "lus", "or", "pa", "ta",
        "bn", "ks", "kn"] →
      ∀ mongoURI, loadConfig w = .ok mongoURI →
      ∃ langName, envLookup (args.getD 0 "") UpdateRegionalYoutube.validLanguages
          = some langName ∧
        UpdateRegionalYoutube.main w args =
          if args.getD 1 "" = "" ∨ args.getD 2 "" = "" then
            ⟨[.log "Error: Slug and YouTube link are required",
              .print UpdateRegionalYoutube.usageText], [], 1, w.store⟩
          else
            session (UpdateRegionalYoutube.variant (args.getD 0 "")) mongoURI w.faults w.store
              (args.getD 1 "") (args.getD 2 "")
              [.print ("Processing language: " ++ args.getD 0 "" ++ " (" ++ langName ++ ")"),
               .print ("Processing slug: " ++ args.getD 1 ""),
               .print ("New YouTube link: " ++ args.getD 2 "")]) := by
  have hargs : wantsUsage args 3 = false :=
    (wantsUsage_false_iff args 3 (by decide)).mpr ⟨hlen, hh, hhelp⟩
  have hcodes : UpdateRegionalYoutube.validLanguages.map Prod.fst =
      ["te", "as", "kok", "gu", "ml", "mr", "mni", "lus", "or", "pa", "ta", "bn", "ks", "kn"] :=
    rfl
  have hiff := envLookup_isSome_iff (args.getD 0 "") UpdateRegionalYoutube.validLanguages
  rw [hcodes] at hiff
  refine ⟨hiff, ?_, ?_⟩
  · intro hnot
    have hnone : envLookup (args.getD 0 "") UpdateRegionalYoutube.validLanguages = none := by
      rw [envLookup_none_iff, hcodes]
      exact hnot
    have hrun : ∀ mongoURI, loadConfig w = .ok mongoURI →
        UpdateRegionalYoutube.main w args =
          ⟨[.log ("Error: Invalid language code '" ++ args.getD 0 "" ++ "'"),
            .print UpdateRegionalYoutube.usageText], [], 1, w.store⟩ := by
      intro mongoURI hcfg
      rw [regionalMain_of_config hcfg]
      simp only [UpdateRegionalYoutube.mainArgs, hargs, hnone, if_false, Bool.false_eq_true]
      rfl
    cases hcfg : loadConfig w with
    | error line =>
      refine ⟨?_, ?_, ?_, fun _ h => nomatch h⟩ <;> simp [UpdateRegionalYoutube.main, hcfg]
    | ok mongoURI =>
      rw [hrun mongoURI hcfg]
      refine ⟨rfl, rfl, rfl, fun _ _ => rfl⟩
  · intro hmem mongoURI hcfg
    obtain ⟨langName, hl⟩ := hiff.mpr hmem
    refine ⟨langName, hl, ?_⟩
    rw [regionalMain_of_config hcfg]
    simp only [UpdateRegionalYoutube.mainArgs, hargs, hl, if_false, Bool.false_eq_true]
    rfl

/-- The code `xx` is rejected in the sample world before any store operation. -/
theorem language_validation_witness :
    UpdateRegionalYoutube.main Sample.world
      ["xx", "fpktnk.json", "https://www.youtube.com/watch?v=example"] =
      ⟨[.log "Error: Invalid language code 'xx'", .print UpdateRegionalYoutube.usageText],
        [], 1, Sample.world.store⟩ :=
  (language_validation Sample.world
    ["xx", "fpktnk.json", "https://www.youtube.com/watch?v=example"]
    (by decide) (by decide) (by decide)).2.1 (by decide) |>.2.2.2 Sample.uri rfl

/-! ## A single matching record -/

theorem find?_of_unique {p : Doc → Bool} {l : List Doc} {d : Doc} (hmem : d ∈ l)
    (hp : p d = true) (huniq : ∀ x ∈ l, p x = true → x = d) : l.find? p = some d := by
  induction l with
  | nil => simp at hmem
  | cons a l ih =>
    cases hpa : p a
    · have had : d ≠ a := fun h => by rw [h, hpa] at hp; cases hp
      rcases List.mem_cons.mp hmem with h | h
      · exact absurd h had
      · simpa [List.find?, hpa] using ih h fun x hx => huniq x (List.mem_cons_of_mem _ hx)
    · have := huniq a (List.mem_cons_self _ _) hpa
      subst this
      simp [List.find?, hpa]

theorem selectTarget_singleton (d : Doc) : selectTarget [d] = some d := by
  cases h : hasID priorityID d <;> simp [selectTarget, findPriority, h]

/-- Once a target with a string identifier is chosen, the update is issued,
filtered by that identifier. -/
theorem session_issues_update {v : Variant} {mongoURI : String} {f : Faults}
    {store : List Doc} {slug link : String} {pre : List Out} {t : Doc} {id : String}
    (hc : f.connectErr = false) (hf : f.findErr = false) (hd : f.decodeErr = false)
    (hne : (storeFind slug store).length ≠ 0)
    (hsel : selectTarget (storeFind slug store) = some t)
    (hid : lookup "_id" t = some (.str id)) :
    ∃ rest, (session v mongoURI f store slug link pre).trace =
      [.connect mongoURI, .find (slugFilter slug), .cursorAll,
        .updateOne (idFilter id) (setUpdate v.key link)] ++ rest := by
  simp only [session, hc, hf, hd, hne, hsel, hid, if_false, Bool.false_eq_true]
  cases f.updateErr
  case true => exact ⟨[], by simp⟩
  cases storeUpdateOne id v.key link store with
  | none => exact ⟨[], by simp⟩
  | some r =>
    obtain ⟨n, store'⟩ := r
    cases f.findOneErr
    case true => exact ⟨[.findOne (idFilter id)], by simp⟩
    cases hfind : storeFindOne id store' with
    | none => exact ⟨[.findOne (idFilter id)], by simp [hfind]⟩
    | some d' => exact ⟨[.findOne (idFilter id), .cursorClose, .disconnect], by simp [hfind]⟩

/-- A target whose identifier is not a string stops the run at the type
assertion: the deferred close runs, no update is issued. -/
theorem session_panics {v : Variant} {mongoURI : String} {f : Faults}
    {store : List Doc} {slug link : String} {pre : List Out} {t : Doc}
    (hc : f.connectErr = false) (hf : f.findErr = false) (hd : f.decodeErr = false)
    (hne : (storeFind slug store).length ≠ 0)
    (hsel : selectTarget (storeFind slug store) = some t)
    (hid : ∀ id, lookup "_id" t ≠ some (.str id)) :
    (session v mongoURI f store slug link pre).trace =
      [.connect mongoURI, .find (slugFilter slug), .cursorAll, .cursorClose, .disconnect] ∧
    (session v mongoURI f store slug link pre).status = 2 ∧
    (session v mongoURI f store slug link pre).store = store := by
  simp only [session, hc, hf, hd, hne, hsel, if_false, Bool.false_eq_true]
  simp

/-- C1. Target resolution, shared by both programs: when some matching record
has the priority identifier as its `_id`, the record chosen is one of the
matching records and has that `_id`; in every permutation of the result list
the chosen record again has that `_id`, so the identifier of the chosen target
is the same; in every run that gets a permutation of the list as its query
result, the update is issued with the filter on that identifier; and the chosen
record itself is the same in every permutation as soon as the records carrying
that `_id` are one record, which the primary key of a collection guarantees. -/
theorem selectTarget_priority (docs : List Doc)
    (h : ∃ d ∈ docs, lookup "_id" d = some (.str priorityID)) :
    (∃ t, t ∈ docs ∧ selectTarget docs = some t ∧ lookup "_id" t = some (.str priorityID)) ∧
    (∀ docs', docs.Perm docs' →
      ∃ t', t' ∈ docs ∧ selectTarget docs' = some t' ∧
        lookup "_id" t' = some (.str priorityID)) ∧
    (∀ docs', docs.Perm docs' →
      (selectTarget docs').bind (lookup "_id") = (selectTarget docs).bind (lookup "_id")) ∧
    (∀ (v : Variant) (mongoURI : String) (f : Faults) (store : List Doc)
        (slug link : String) (pre : List Out),
      f.connectErr = false → f.findErr = false → f.decodeErr = false →
      docs.Perm (storeFind slug store) →
      ∃ rest, (session v mongoURI f store slug link pre).trace =
        [.connect mongoURI, .find (slugFilter slug), .cursorAll,
          .updateOne [("_id", .str priorityID)] (setUpdate v.key link)] ++ rest) ∧
    ((∀ a ∈ docs, ∀ b ∈ docs, lookup "_id" a = some (.str priorityID) →
        lookup "_id" b = some (.str priorityID) → a = b) →
      ∀ docs', docs.Perm docs' → selectTarget docs' = selectTarget docs) := by
  obtain ⟨t, ht, _, hsel, hid⟩ := selectTarget_of_mem_priority docs h
  have hperm : ∀ docs', docs.Perm docs' →
      ∃ t', t' ∈ docs ∧ selectTarget docs' = some t' ∧
        lookup "_id" t' = some (.str priorityID) := by
    intro docs' hp
    obtain ⟨d, hd, hdid⟩ := h
    obtain ⟨t', ht', _, hsel', hid'⟩ :=
      selectTarget_of_mem_priority docs' ⟨d, hp.subset hd, hdid⟩
    exact ⟨t', hp.symm.subset ht', hsel', hid'⟩
  refine ⟨⟨t, ht, hsel, hid⟩, hperm, ?_, ?_, ?_⟩
  · intro docs' hp
    obtain ⟨t', _, hsel', hid'⟩ := hperm docs' hp
    simp [hsel, hsel', hid, hid']
  · intro v mongoURI f store slug link pre hc hf hd hp
    obtain ⟨t', ht', hsel', hid'⟩ := hperm _ hp
    have hne : (storeFind slug store).length ≠ 0 := by
      intro h0
      have hmem := hp.subset ht'
      rw [List.length_eq_zero.mp h0] at hmem
      simp at hmem
    exact session_issues_update hc hf hd hne hsel' hid'
  · intro huniq docs' hp
    obtain ⟨t', ht', hsel', hid'⟩ := hperm docs' hp
    rw [hsel, hsel', huniq t' ht' t ht hid' hid]

/-- Two records share the slug `dup.json` in the sample world, the second one
under the priority identifier: it is the one chosen. -/
theorem selectTarget_priority_witness :
    ∃ t, t ∈ Sample.dupDocs ∧ selectTarget Sample.dupDocs = some t ∧
      lookup "_id" t = some (.str priorityID) :=
  (selectTarget_priority Sample.dupDocs
    ⟨[("_id", .str priorityID), ("filter", .doc [("slug", .str "dup.json")])],
      List.mem_cons_of_mem _ (List.mem_cons_self _ _), rfl⟩).1

/-- C4, as stated, fails: the sample collection holds exactly one record with
slug `objid.json`, its `_id` is an object identifier, and both programs end at
the type assertion with status 2 after the deferred close, without issuing any
update. -/
theorem single_match_objectID_not_updated :
    storeFind "objid.json" Sample.world.store =
      [[("_id", .objectID "65f0c0ffee65f0c0ffee65f0"),
        ("filter", .doc [("slug", .str "objid.json")])]] ∧
    (UpdateApplicationLink.main Sample.world ["objid.json", "https://new-link.com"]).trace =
      [.connect Sample.uri, .find (slugFilter "objid.json"), .cursorAll,
        .cursorClose, .disconnect] ∧
    (UpdateApplicationLink.main Sample.world ["objid.json", "https://new-link.com"]).status
      = 2 ∧
    (UpdateRegionalYoutube.main Sample.world
      ["ta", "objid.json", "https://www.youtube.com/watch?v=example"]).trace =
      [.connect Sample.uri, .find (slugFilter "objid.json"), .cursorAll,
        .cursorClose, .disconnect] ∧
    (UpdateRegionalYoutube.main Sample.world
      ["ta", "objid.json", "https://www.youtube.com/watch?v=example"]).status = 2 :=
  ⟨rfl, rfl, rfl, rfl, rfl⟩

/-- C4, amended. Both programs, once configured and connected: when the query
for the slug returns exactly one record and the `_id` of that record is a
string, that record is the chosen target and the next store operation is the
`UpdateOne` whose filter is that `_id` and whose update is the `$set` of the
program; and with identifiers unique in the collection, that filter addresses
this record. -/
theorem single_match_updated (w : World) (mongoURI : String) (d : Doc) (id : String)
    (hcfg : loadConfig w = .ok mongoURI)
    (hc : w.faults.connectErr = false) (hf : w.faults.findErr = false)
    (hd : w.faults.decodeErr = false)
    (hid : lookup "_id" d = some (.str id)) :
    (∀ args : List String, wantsUsage args 2 = false →
      args.getD 0 "" ≠ "" → args.getD 1 "" ≠ "" →
      storeFind (args.getD 0 "") w.store = [d] →
      selectTarget (storeFind (args.getD 0 "") w.store) = some d ∧
      ∃ rest, (UpdateApplicationLink.main w args).trace =
        [.connect mongoURI, .find (slugFilter (args.getD 0 "")), .cursorAll,
          .updateOne [("_id", .str id)]
            [("$set", .doc [("data.en.application_link.value", .str (args.getD 1 ""))])]]
          ++ rest) ∧
    (∀ (args : List String) (langName : String), wantsUsage args 3 = false →
      envLookup (args.getD 0 "") UpdateRegionalYoutube.validLanguages = some langName →
      args.getD 1 "" ≠ "" → args.getD 2 "" ≠ "" →
      storeFind (args.getD 1 "") w.store = [d] →
      selectTarget (storeFind (args.getD 1 "") w.store) = some d ∧
      ∃ rest, (UpdateRegionalYoutube.main w args).trace =
        [.connect mongoURI, .find (slugFilter (args.getD 1 "")), .cursorAll,
          .updateOne [("_id", .str id)]
            [("$set", .doc [("data." ++ args.getD 0 "" ++ ".media.video",
              .str (args.getD 2 ""))])]]
          ++ rest) ∧
    (∀ slug : String, storeFind slug w.store = [d] →
      (∀ d' ∈ w.store, lookup "_id" d' = some (.str id) → d' = d) →
      storeFindOne id w.store = some d) := by
  refine ⟨?_, ?_, ?_⟩
  · intro args hargs hslug hlink hone
    have hsel : selectTarget (storeFind (args.getD 0 "") w.store) = some d := by
      rw [hone]; exact selectTarget_singleton d
    refine ⟨hsel, ?_⟩
    rw [appMain_of_config hcfg, appMainArgs_session hargs hslug hlink]
    exact session_issues_update hc hf hd (by rw [hone]; simp) hsel hid
  · intro args langName hargs hlang hslug hlink hone
    have hsel : selectTarget (storeFind (args.getD 1 "") w.store) = some d := by
      rw [hone]; exact selectTarget_singleton d
    refine ⟨hsel, ?_⟩
    rw [regionalMain_of_config hcfg, regionalMainArgs_session hargs hlang hslug hlink]
    exact session_issues_update hc hf hd (by rw [hone]; simp) hsel hid
  · intro slug hone huniq
    have hmem : d ∈ w.store := by
      have : d ∈ storeFind slug w.store := by rw [hone]; exact List.mem_singleton_self d
      exact (List.mem_filter.mp this).1
    exact find?_of_unique hmem ((hasID_iff id d).mpr hid)
      fun x hx hp => huniq x hx ((hasID_iff id x).mp hp)

/-- The sample collection holds exactly one record with slug `fpktnk.json`,
under the string identifier `a1`: both programs update it. -/
theorem single_match_updated_witness :
    (∃ rest, (UpdateApplicationLink.main Sample.world
        ["fpktnk.json", "https://new-link.com"]).trace =
      [.connect Sample.uri, .find (slugFilter "fpktnk.json"), .cursorAll,
        .updateOne [("_id", .str "a1")]
          [("$set", .doc [("data.en.application_link.value", .str "https://new-link.com")])]]
        ++ rest) ∧
    (∃ rest, (UpdateRegionalYoutube.main Sample.world
        ["ta", "fpktnk.json", "https://www.youtube.com/watch?v=example"]).trace =
      [.connect Sample.uri, .find (slugFilter "fpktnk.json"), .cursorAll,
        .updateOne [("_id", .str "a1")]
          [("$set", .doc [("data.ta.media.video",
            .str "https://www.youtube.com/watch?v=example")])]]
        ++ rest) := by
  have h := single_match_updated Sample.world Sample.uri
    [("_id", .str "a1"), ("slug", .str "fpktnk.json"),
      ("data", .doc [("en", .doc [("application_link",
        .doc [("value", .str "https://old-link.com")])])])]
    "a1" rfl rfl rfl rfl rfl
  exact ⟨(h.1 ["fpktnk.json", "https://new-link.com"] rfl (by decide) (by decide) rfl).2,
    (h.2.1 ["ta", "fpktnk.json", "https://www.youtube.com/watch?v=example"] "Tamil"
      rfl rfl (by decide) (by decide) rfl).2⟩

/-! ## Usage exits -/

/-- Every run of the shared part starts by connecting. -/
theorem session_trace_head (v : Variant) (mongoURI : String) (f : Faults) (store : List Doc)
    (slug link : String) (pre : List Out) :
    (session v mongoURI f store slug link pre).trace.head? = some (.connect mongoURI) := by
  simp only [session]
  repeat' split
  all_goals rfl

theorem wantsUsage_true_iff (args : List String) (n : Nat) (hn : 0 < n) :
    wantsUsage args n = true ↔
      args.length < n ∨ args.head? = some "-h" ∨ args.head? = some "--help" := by
  have h := wantsUsage_false_iff args n hn
  cases hw : wantsUsage args n
  · rw [hw] at h
    have h' := h.mp rfl
    constructor
    · intro hf; exact absurd hf (by simp)
    · rintro (h1 | h2 | h3)
      · omega
      · exact absurd h2 h'.2.1
      · exact absurd h3 h'.2.2
  · rw [hw] at h
    constructor
    · intro _
      by_contra hcon
      push_neg at hcon
      have := h.mpr ⟨by omega, hcon.2.1, hcon.2.2⟩
      exact absurd this (by simp)
    · intro _; rfl

/-- C6, as stated, fails: an argument list longer than the count is not turned
away.  With three arguments the application-link program, and with four the
regional program, goes to the store and ends with status 0; and a help flag
that is not the first argument is taken as the new link. -/
theorem extra_arguments_accepted :
    (UpdateApplicationLink.main Sample.world
      ["missing.json", "https://new-link.com", "extra"]).trace =
      [.connect Sample.uri, .find (slugFilter "missing.json"), .cursorAll,
        .cursorClose, .disconnect] ∧
    (UpdateApplicationLink.main Sample.world
      ["missing.json", "https://new-link.com", "extra"]).status = 0 ∧
    (UpdateRegionalYoutube.main Sample.world
      ["ta", "missing.json", "https://www.youtube.com/watch?v=example", "extra"]).trace =
      [.connect Sample.uri, .find (slugFilter "missing.json"), .cursorAll,
        .cursorClose, .disconnect] ∧
    (UpdateRegionalYoutube.main Sample.world
      ["ta", "missing.json", "https://www.youtube.com/watch?v=example", "extra"]).status = 0 ∧
    (UpdateApplicationLink.main Sample.world ["fpktnk.json", "--help"]).trace =
      [.connect Sample.uri, .find (slugFilter "fpktnk.json"), .cursorAll,
        .updateOne [("_id", .str "a1")]
          [("$set", .doc [("data.en.application_link.value", .str "--help")])],
        .findOne [("_id", .str "a1")], .cursorClose, .disconnect] :=
  ⟨rfl, rfl, rfl, rfl, rfl⟩

/-- C6, amended. Both programs, once configured.  An argument list with fewer
than two (regional: three) arguments, or whose first argument is `-h` or
`--help`, makes the run print the usage text and end with status 1 with no
store operation attempted; so does, after a log line, an empty slug or link,
and in the regional program a language code outside `validLanguages`.  Every
other argument list, longer ones included, is accepted: the run goes on to
connect with the leading two (three) arguments. -/
theorem usage_exit (w : World) (mongoURI : String) (args : List String)
    (hcfg : loadConfig w = .ok mongoURI) :
    ((args.length < 2 ∨ args.head? = some "-h" ∨ args.head? = some "--help") →
      UpdateApplicationLink.main w args =
        ⟨[.print UpdateApplicationLink.usageText], [], 1, w.store⟩) ∧
    (¬ (args.length < 2 ∨ args.head? = some "-h" ∨ args.head? = some "--help") →
      (args.getD 0 "" = "" ∨ args.getD 1 "" = "" →
        UpdateApplicationLink.main w args =
          ⟨[.log "Error: Slug and application link are required",
            .print UpdateApplicationLink.usageText], [], 1, w.store⟩) ∧
      (¬ (args.getD 0 "" = "" ∨ args.getD 1 "" = "") →
        UpdateApplicationLink.main w args =
          session UpdateApplicationLink.variant mongoURI w.faults w.store
            (args.getD 0 "") (args.getD 1 "")
            [.print ("Processing slug: " ++ args.getD 0 ""),
             .print ("New application link: " ++ args.getD 1 "")] ∧
        (UpdateApplicationLink.main w args).trace.head? = some (.connect mongoURI))) ∧
    ((args.length < 3 ∨ args.head? = some "-h" ∨ args.head? = some "--help") →
      UpdateRegionalYoutube.main w args =
        ⟨[.print UpdateRegionalYoutube.usageText], [], 1, w.store⟩) ∧
    (¬ (args.length < 3 ∨ args.head? = some "-h" ∨ args.head? = some "--help") →
      (envLookup (args.getD 0 "") UpdateRegionalYoutube.validLanguages = none →
        UpdateRegionalYoutube.main w args =
          ⟨[.log ("Error: Invalid language code '" ++ args.getD 0 "" ++ "'"),
            .print UpdateRegionalYoutube.usageText], [], 1, w.store⟩) ∧
      ∀ langName,
      envLookup (args.getD 0 "") UpdateRegionalYoutube.validLanguages = some langName →
      (args.getD 1 "" = "" ∨ args.getD 2 "" = "" →
        UpdateRegionalYoutube.main w args =
          ⟨[.log "Error: Slug and YouTube link are required",
            .print UpdateRegionalYoutube.usageText], [], 1, w.store⟩) ∧
      (¬ (args.getD 1 "" = "" ∨ args.getD 2 "" = "") →
        (UpdateRegionalYoutube.main w args).trace.head? = some (.connect mongoURI))) := by
  refine ⟨?_, ?_, ?_, ?_⟩
  · intro h
    have hw := (wantsUsage_true_iff args 2 (by decide)).mpr h
    rw [appMain_of_config hcfg]
    simp only [UpdateApplicationLink.mainArgs, hw, if_true]
    rfl
  · intro h
    have hw : wantsUsage args 2 = false := by
      cases hw : wantsUsage args 2
      · rfl
      · exact absurd ((wantsUsage_true_iff args 2 (by decide)).mp hw) h
    constructor
    · intro he
      rw [appMain_of_config hcfg]
      simp only [UpdateApplicationLink.mainArgs, hw, he, if_true, if_false, Bool.false_eq_true]
      rfl
    · intro he
      have hs : args.getD 0 "" ≠ "" := fun h0 => he (Or.inl h0)
      have hl : args.getD 1 "" ≠ "" := fun h0 => he (Or.inr h0)
      have hm := @appMainArgs_session w mongoURI args hw hs hl
      rw [appMain_of_config hcfg, hm]
      exact ⟨rfl, session_trace_head _ _ _ _ _ _ _⟩
  · intro h
    have hw := (wantsUsage_true_iff args 3 (by decide)).mpr h
    rw [regionalMain_of_config hcfg]
    simp only [UpdateRegionalYoutube.mainArgs, hw, if_true]
    rfl
  · intro h
    have hw : wantsUsage args 3 = false := by
      cases hw : wantsUsage args 3
      · rfl
      · exact absurd ((wantsUsage_true_iff args 3 (by decide)).mp hw) h
    refine ⟨?_, ?_⟩
    · intro hnone
      rw [regionalMain_of_config hcfg]
      simp only [UpdateRegionalYoutube.mainArgs, hw, hnone, if_false, Bool.false_eq_true]
      rfl
    intro langName hlang
    constructor
    · intro he
      rw [regionalMain_of_config hcfg]
      simp only [UpdateRegionalYoutube.mainArgs, hw, hlang, he, if_true, if_false,
        Bool.false_eq_true]
      rfl
    · intro he
      have hs : args.getD 1 "" ≠ "" := fun h0 => he (Or.inl h0)
      have hl : args.getD 2 "" ≠ "" := fun h0 => he (Or.inr h0)
      have hm := @regionalMainArgs_session w mongoURI args langName hw hlang hs hl
      rw [regionalMain_of_config hcfg, hm]
      exact session_trace_head _ _ _ _ _ _ _

/-- In the sample world a single argument sends both programs to the usage
text. -/
theorem usage_exit_witness :
    UpdateApplicationLink.main Sample.world ["fpktnk.json"] =
      ⟨[.print UpdateApplicationLink.usageText], [], 1, Sample.world.store⟩ ∧
    UpdateRegionalYoutube.main Sample.world ["fpktnk.json"] =
      ⟨[.print UpdateRegionalYoutube.usageText], [], 1, Sample.world.store⟩ :=
  have h := usage_exit Sample.world Sample.uri ["fpktnk.json"] rfl
  ⟨h.1 (Or.inl (by decide)), h.2.2.1 (Or.inl (by decide))⟩

/-! ## Release of the connection -/

/-- With the connection open, the deferred disconnect has run exactly in the
runs that do not end in a fatal log. -/
theorem session_disconnect_iff (v : Variant) (mongoURI : String) (f : Faults)
    (store : List Doc) (slug link : String) (pre : List Out) :
    Event.disconnect ∈ (session v mongoURI f store slug link pre).trace ↔
      (session v mongoURI f store slug link pre).status ≠ 1 := by
  simp only [session]
  repeat' split
  all_goals simp

/-- C7 fails on the code: after a successful connect, a query, decode, update
or verification error ends the run in a fatal log with status 1, and the trace
of the run stops at the failed operation, with no disconnect. -/
theorem fatal_exit_skips_disconnect :
    (UpdateApplicationLink.main (Sample.worldWith ⟨false, true, false, false, false, false⟩)
      ["fpktnk.json", "https://new-link.com"]).trace =
      [.connect Sample.uri, .find (slugFilter "fpktnk.json")] ∧
    (UpdateApplicationLink.main (Sample.worldWith ⟨false, true, false, false, false, false⟩)
      ["fpktnk.json", "https://new-link.com"]).status = 1 ∧
    (UpdateApplicationLink.main (Sample.worldWith ⟨false, false, true, false, false, false⟩)
      ["fpktnk.json", "https://new-link.com"]).trace =
      [.connect Sample.uri, .find (slugFilter "fpktnk.json"), .cursorAll] ∧
    (UpdateApplicationLink.main (Sample.worldWith ⟨false, false, false, true, false, false⟩)
      ["fpktnk.json", "https://new-link.com"]).trace =
      [.connect Sample.uri, .find (slugFilter "fpktnk.json"), .cursorAll,
        .updateOne (idFilter "a1")
          (setUpdate "data.en.application_link.value" "https://new-link.com")] ∧
    (UpdateApplicationLink.main (Sample.worldWith ⟨false, false, false, false, true, false⟩)
      ["fpktnk.json", "https://new-link.com"]).trace =
      [.connect Sample.uri, .find (slugFilter "fpktnk.json"), .cursorAll,
        .updateOne (idFilter "a1")
          (setUpdate "data.en.application_link.value" "https://new-link.com"),
        .findOne (idFilter "a1")] ∧
    (UpdateRegionalYoutube.main (Sample.worldWith ⟨false, true, false, false, false, false⟩)
      ["ta", "fpktnk.json", "https://www.youtube.com/watch?v=example"]).trace =
      [.connect Sample.uri, .find (slugFilter "fpktnk.json")] ∧
    Event.disconnect ∉
      (UpdateApplicationLink.main (Sample.worldWith ⟨false, true, false, false, false, false⟩)
        ["fpktnk.json", "https://new-link.com"]).trace :=
  ⟨rfl, rfl, rfl, rfl, rfl, rfl, by
    rw [show (UpdateApplicationLink.main
        (Sample.worldWith ⟨false, true, false, false, false, false⟩)
        ["fpktnk.json", "https://new-link.com"]).trace =
      [.connect Sample.uri, .find (slugFilter "fpktnk.json")] from rfl]
    simp⟩

/-! ## Configuration -/

theorem envLookup_append (k : String) (a b : List (String × String)) :
    envLookup k (a ++ b) =
      match envLookup k a with
      | some v => some v
      | none => envLookup k b := by
  induction a with
  | nil => simp [envLookup]
  | cons p rest ih =>
    obtain ⟨k', v'⟩ := p
    by_cases hk : k' = k
    · simp [envLookup, hk]
    · simp [envLookup, hk, ih]

theorem envLookup_filter_unset (k : String) (env kvs : List (String × String))
    (hk : envLookup k env = none) :
    envLookup k (kvs.filter (fun kv => (envLookup kv.1 env).isNone)) = envLookup k kvs := by
  induction kvs with
  | nil => rfl
  | cons p rest ih =>
    obtain ⟨k', v'⟩ := p
    by_cases hkk : k' = k
    · subst hkk
      simp [List.filter, hk, envLookup]
    · cases hp : (envLookup k' env).isNone
      · simp [List.filter, hp, envLookup, hkk, ih]
      · simp [List.filter, hp, envLookup, hkk, ih]

/-- The connection string after a successful load: the value of the process
environment when it defines `MONGO_URI`, else the value of the last line of the
file that binds it. -/
theorem getenv_after_load (env kvs env' : List (String × String))
    (h : godotenvLoad (.entries kvs) env = some env') :
    getenv "MONGO_URI" env' =
      match envLookup "MONGO_URI" env with
      | some v => v
      | none => (envLookup "MONGO_URI" kvs.reverse).getD "" := by
  simp only [godotenvLoad, Option.some.injEq] at h
  subst h
  unfold getenv
  rw [envLookup_append]
  cases hk : envLookup "MONGO_URI" env with
  | some v => rfl
  | none => simp only [envLookup_filter_unset _ _ _ hk]

/-- C8, as stated, fails: with no environment file and `MONGO_URI` set to a
non-empty value in the process environment, loading the configuration fails and
both programs end in the fatal log of the load, before any argument is read. -/
theorem missing_env_file_is_fatal :
    Sample.worldNoFile.envFile = .missing ∧
    envLookup "MONGO_URI" Sample.worldNoFile.environ = some "mongodb://localhost:27017" ∧
    loadConfig Sample.worldNoFile = .error (.log "Error loading .env file") ∧
    UpdateApplicationLink.main Sample.worldNoFile ["fpktnk.json", "https://new-link.com"] =
      ⟨[.log "Error loading .env file"], [], 1, Sample.worldNoFile.store⟩ ∧
    UpdateRegionalYoutube.main Sample.worldNoFile
      ["ta", "fpktnk.json", "https://www.youtube.com/watch?v=example"] =
      ⟨[.log "Error loading .env file"], [], 1, Sample.worldNoFile.store⟩ :=
  ⟨rfl, rfl, rfl, rfl, rfl⟩

/-- C8, amended. Both programs first load the environment file and end in a
fatal log with status 1 when it cannot be loaded, whatever the process
environment holds.  When the file is loaded, the connection string is the value
of `MONGO_URI` in the process environment if it is defined there, else the
value of the last line of the file that binds it; the programs end in the fatal
log of the missing connection string exactly when that value is absent or
empty, and otherwise go on to argument validation with it. -/
theorem config_loading (w : World) (args : List String) :
    ((w.envFile = .missing ∨ w.envFile = .malformed) →
      UpdateApplicationLink.main w args = ⟨[.log "Error loading .env file"], [], 1, w.store⟩ ∧
      UpdateRegionalYoutube.main w args = ⟨[.log "Error loading .env file"], [], 1, w.store⟩) ∧
    (∀ kvs mongoURI, w.envFile = .entries kvs →
      mongoURI = (match envLookup "MONGO_URI" w.environ with
        | some v => v
        | none => (envLookup "MONGO_URI" kvs.reverse).getD "") →
      (mongoURI = "" →
        UpdateApplicationLink.main w args =
          ⟨[.log "MONGO_URI not set in .env file"], [], 1, w.store⟩ ∧
        UpdateRegionalYoutube.main w args =
          ⟨[.log "MONGO_URI not set in .env file"], [], 1, w.store⟩) ∧
      (mongoURI ≠ "" →
        loadConfig w = .ok mongoURI ∧
        UpdateApplicationLink.main w args = UpdateApplicationLink.mainArgs mongoURI w args ∧
        UpdateRegionalYoutube.main w args = UpdateRegionalYoutube.mainArgs mongoURI w args)) := by
  constructor
  · intro h
    have hl : godotenvLoad w.envFile w.environ = none := by
      rcases h with h | h <;> rw [h] <;> rfl
    simp [UpdateApplicationLink.main, UpdateRegionalYoutube.main, loadConfig, hl]
  · intro kvs mongoURI hfile huri
    have hl : godotenvLoad w.envFile w.environ =
        some (w.environ ++ kvs.reverse.filter
          (fun kv => (envLookup kv.1 w.environ).isNone)) := by
      rw [hfile]; rfl
    have hg := getenv_after_load w.environ kvs _ (hfile ▸ hl)
    rw [← huri] at hg
    constructor
    · intro he
      rw [he] at hg
      have hcfg : loadConfig w = .error (.log "MONGO_URI not set in .env file") := by
        simp only [loadConfig, hl, hg, if_true]
      simp [UpdateApplicationLink.main, UpdateRegionalYoutube.main, hcfg]
    · intro hne
      have hcfg : loadConfig w = .ok mongoURI := by
        simp only [loadConfig, hl, hg, hne, if_false]
      exact ⟨hcfg, appMain_of_config hcfg args, regionalMain_of_config hcfg args⟩

/-- The sample world loads its connection string from the file; a file that
binds it twice, first to the empty string, gives the second value; the world
without a file does not get as far as reading it. -/
theorem config_loading_witness :
    loadConfig Sample.world = .ok "mongodb://localhost:27017" ∧
    loadConfig Sample.worldTwice = .ok "mongodb://localhost:27017" ∧
    UpdateApplicationLink.main Sample.worldNoFile ["fpktnk.json", "https://new-link.com"] =
      ⟨[.log "Error loading .env file"], [], 1, Sample.worldNoFile.store⟩ :=
  ⟨((config_loading Sample.world []).2 [("MONGO_URI", Sample.uri)] Sample.uri rfl rfl).2
      (by decide) |>.1,
    ((config_loading Sample.worldTwice []).2
      [("MONGO_URI", ""), ("MONGO_URI", Sample.uri)] Sample.uri rfl rfl).2 (by decide) |>.1,
    ((config_loading Sample.worldNoFile ["fpktnk.json", "https://new-link.com"]).1
      (Or.inl rfl)).1⟩

/-! ## Runs of `main`: early exit or the shared part -/

/-- A run of the application-link program either ends before the store is
touched, with status 1, or is a run of the shared part on the leading two
arguments. -/
theorem appMain_exit_or_session (w : World) (args : List String) :
    ((UpdateApplicationLink.main w args).trace = [] ∧
      (UpdateApplicationLink.main w args).status = 1 ∧
      (UpdateApplicationLink.main w args).store = w.store) ∨
    ∃ mongoURI, loadConfig w = .ok mongoURI ∧ wantsUsage args 2 = false ∧
      args.getD 0 "" ≠ "" ∧ args.getD 1 "" ≠ "" ∧
      UpdateApplicationLink.main w args =
        session UpdateApplicationLink.variant mongoURI w.faults w.store
          (args.getD 0 "") (args.getD 1 "")
          [.print ("Processing slug: " ++ args.getD 0 ""),
           .print ("New application link: " ++ args.getD 1 "")] := by
  cases hcfg : loadConfig w with
  | error line => left; simp [UpdateApplicationLink.main, hcfg]
  | ok mongoURI =>
    rw [appMain_of_config hcfg]
    cases hw : wantsUsage args 2 with
    | true =>
      left
      simp only [UpdateApplicationLink.mainArgs, hw, if_true]
      exact ⟨rfl, rfl, rfl⟩
    | false =>
      by_cases he : args.getD 0 "" = "" ∨ args.getD 1 "" = ""
      · left
        simp only [UpdateApplicationLink.mainArgs, hw, he, if_true, if_false,
          Bool.false_eq_true]
        exact ⟨rfl, rfl, rfl⟩
      · right
        have hs : args.getD 0 "" ≠ "" := fun h0 => he (Or.inl h0)
        have hl : args.getD 1 "" ≠ "" := fun h0 => he (Or.inr h0)
        exact ⟨mongoURI, rfl, rfl, hs, hl, appMainArgs_session hw hs hl⟩

/-- A run of the regional program either ends before the store is touched, with
status 1, or is a run of the shared part on the leading three arguments, the
first of them a valid language code. -/
theorem regionalMain_exit_or_session (w : World) (args : List String) :
    ((UpdateRegionalYoutube.main w args).trace = [] ∧
      (UpdateRegionalYoutube.main w args).status = 1 ∧
      (UpdateRegionalYoutube.main w args).store = w.store) ∨
    ∃ mongoURI langName, loadConfig w = .ok mongoURI ∧ wantsUsage args 3 = false ∧
      envLookup (args.getD 0 "") UpdateRegionalYoutube.validLanguages = some langName ∧
      args.getD 1 "" ≠ "" ∧ args.getD 2 "" ≠ "" ∧
      UpdateRegionalYoutube.main w args =
        session (UpdateRegionalYoutube.variant (args.getD 0 "")) mongoURI w.faults w.store
          (args.getD 1 "") (args.getD 2 "")
          [.print ("Processing language: " ++ args.getD 0 "" ++ " (" ++ langName ++ ")"),
           .print ("Processing slug: " ++ args.getD 1 ""),
           .print ("New YouTube link: " ++ args.getD 2 "")] := by
  cases hcfg : loadConfig w with
  | error line => left; simp [UpdateRegionalYoutube.main, hcfg]
  | ok mongoURI =>
    rw [regionalMain_of_config hcfg]
    cases hw : wantsUsage args 3 with
    | true =>
      left
      simp only [UpdateRegionalYoutube.mainArgs, hw, if_true]
      exact ⟨rfl, rfl, rfl⟩
    | false =>
      cases hlang : envLookup (args.getD 0 "") UpdateRegionalYoutube.validLanguages with
      | none =>
        left
        simp only [UpdateRegionalYoutube.mainArgs, hw, hlang, if_false, Bool.false_eq_true]
        exact ⟨rfl, rfl, rfl⟩
      | some langName =>
        by_cases he : args.getD 1 "" = "" ∨ args.getD 2 "" = ""
        · left
          simp only [UpdateRegionalYoutube.mainArgs, hw, hlang, he, if_true, if_false,
            Bool.false_eq_true]
          exact ⟨rfl, rfl, rfl⟩
        · right
          have hs : args.getD 1 "" ≠ "" := fun h0 => he (Or.inl h0)
          have hl : args.getD 2 "" ≠ "" := fun h0 => he (Or.inr h0)
          exact ⟨mongoURI, langName, rfl, rfl, rfl, hs, hl,
            regionalMainArgs_session hw hlang hs hl⟩

/-! ## The verification read -/

/-- A run of the shared part whose verification fetch returns a record ends
with status 0 and has printed the value read from that record. -/
theorem session_verifies (v : Variant) (mongoURI : String) (f : Faults)
    (store : List Doc) (slug link : String) (pre : List Out) (id : String) (d : Doc)
    (htrace : Event.findOne (idFilter id) ∈ (session v mongoURI f store slug link pre).trace)
    (hfo : f.findOneErr = false)
    (hfetch : storeFindOne id (session v mongoURI f store slug link pre).store = some d) :
    (session v mongoURI f store slug link pre).status = 0 ∧
    Out.print (v.label ++ verifyRead v.k2 v.k3 v.k4 d)
      ∈ (session v mongoURI f store slug link pre).out := by
  revert htrace hfetch
  simp only [session]
  repeat' split
  all_goals simp_all [idFilter]

theorem verifyRead_found {k2 k3 k4 : String} {d data en app : Doc} {s : String}
    (h1 : lookup "data" d = some (.doc data)) (h2 : lookup k2 data = some (.doc en))
    (h3 : lookup k3 en = some (.doc app)) (h4 : lookup k4 app = some (.str s)) :
    verifyRead k2 k3 k4 d = s := by
  simp [verifyRead, h1, h2, h3, h4]

theorem verifyRead_not_found {k2 k3 k4 : String} {d : Doc}
    (h : ¬ ∃ data en app s, lookup "data" d = some (.doc data) ∧
      lookup k2 data = some (.doc en) ∧ lookup k3 en = some (.doc app) ∧
      lookup k4 app = some (.str s)) :
    verifyRead k2 k3 k4 d = "Not found" := by
  unfold verifyRead
  repeat' split
  all_goals first
    | rfl
    | exact absurd ⟨_, _, _, _, ‹_›, ‹_›, ‹_›, ‹_›⟩ h

/-- C9. The verification read of both programs.  For every record, the value
read is the string at `data`, then the language entry, then the third-level
entry, then the leaf, when the three outer values are embedded documents and
the leaf is a string, and it is exactly "Not found" in every other case.  And
in every run in which the verification fetch is issued and returns a record,
the run prints the label followed by the value read from that record and ends
with status 0. -/
theorem verification_read :
    (∀ (k2 k3 k4 : String) (d : Doc),
      (∀ data en app s, lookup "data" d = some (.doc data) →
        lookup k2 data = some (.doc en) → lookup k3 en = some (.doc app) →
        lookup k4 app = some (.str s) → verifyRead k2 k3 k4 d = s) ∧
      ((¬ ∃ data en app s, lookup "data" d = some (.doc data) ∧
          lookup k2 data = some (.doc en) ∧ lookup k3 en = some (.doc app) ∧
          lookup k4 app = some (.str s)) →
        verifyRead k2 k3 k4 d = "Not found")) ∧
    (∀ (w : World) (args : List String) (id : String) (d : Doc),
      Event.findOne [("_id", .str id)] ∈ (UpdateApplicationLink.main w args).trace →
      w.faults.findOneErr = false →
      storeFindOne id (UpdateApplicationLink.main w args).store = some d →
      (UpdateApplicationLink.main w args).status = 0 ∧
      Out.print ("en.application_link.value: "
          ++ verifyRead "en" "application_link" "value" d)
        ∈ (UpdateApplicationLink.main w args).out) ∧
    (∀ (w : World) (args : List String) (id : String) (d : Doc),
      Event.findOne [("_id", .str id)] ∈ (UpdateRegionalYoutube.main w args).trace →
      w.faults.findOneErr = false →
      storeFindOne id (UpdateRegionalYoutube.main w args).store = some d →
      (UpdateRegionalYoutube.main w args).status = 0 ∧
      Out.print (args.getD 0 "" ++ ".media.video: "
          ++ verifyRead (args.getD 0 "") "media" "video" d)
        ∈ (UpdateRegionalYoutube.main w args).out) := by
  refine ⟨fun k2 k3 k4 d => ⟨fun data en app s h1 h2 h3 h4 => verifyRead_found h1 h2 h3 h4,
    verifyRead_not_found⟩, ?_, ?_⟩
  · intro w args id d htrace hfo hfetch
    rcases appMain_exit_or_session w args with ⟨ht, _, _⟩ | ⟨mongoURI, _, _, _, _, hrun⟩
    · rw [ht] at htrace
      simp at htrace
    · rw [hrun] at htrace hfetch ⊢
      exact session_verifies _ _ _ _ _ _ _ id d htrace hfo hfetch
  · intro w args id d htrace hfo hfetch
    rcases regionalMain_exit_or_session w args with
      ⟨ht, _, _⟩ | ⟨mongoURI, langName, _, _, _, _, _, hrun⟩
    · rw [ht] at htrace
      simp at htrace
    · rw [hrun] at htrace hfetch ⊢
      exact session_verifies _ _ _ _ _ _ _ id d htrace hfo hfetch

/-- In the sample world the application-link program fetches the record `a1`
after the update and prints the new link; and a record whose `data` is a string
reads as "Not found". -/
theorem verification_read_witness :
    Out.print "en.application_link.value: https://new-link.com" ∈
      (UpdateApplicationLink.main Sample.world ["fpktnk.json", "https://new-link.com"]).out ∧
    verifyRead "en" "application_link" "value"
      [("_id", .str "b2"), ("slug", .str "flat.json"), ("data", .str "x")] = "Not found" :=
  ⟨(verification_read.2.1 Sample.world ["fpktnk.json", "https://new-link.com"] "a1"
      [("_id", .str "a1"), ("slug", .str "fpktnk.json"),
        ("data", .doc [("en", .doc [("application_link",
          .doc [("value", .str "https://new-link.com")])])])]
      (by
        rw [show (UpdateApplicationLink.main Sample.world
            ["fpktnk.json", "https://new-link.com"]).trace =
          [.connect Sample.uri, .find (slugFilter "fpktnk.json"), .cursorAll,
            .updateOne [("_id", .str "a1")]
              [("$set", .doc [("data.en.application_link.value",
                .str "https://new-link.com")])],
            .findOne [("_id", .str "a1")], .cursorClose, .disconnect] from rfl]
        simp)
      rfl rfl).2,
    (verification_read.1 "en" "application_link" "value"
      [("_id", .str "b2"), ("slug", .str "flat.json"), ("data", .str "x")]).2
      (by
        rintro ⟨data, _, _, _, h, _⟩
        simp [lookup] at h)⟩

/-! ## The update document and what it touches -/

theorem lookup_replace_ne {k a : String} (v : BVal) (d : Doc) (h : a ≠ k) :
    lookup a (replace k v d) = lookup a d := by
  induction d with
  | nil => rfl
  | cons p rest ih =>
    obtain ⟨k', v'⟩ := p
    by_cases hk : k' = k
    · subst hk
      have : ¬ k' = a := fun h' => h h'.symm
      simp [replace, lookup, this]
    · by_cases ha : k' = a
      · subst ha
        simp [replace, lookup, hk]
      · simp [replace, lookup, hk, ha, ih]

theorem lookup_replace_self {k : String} (v : BVal) (d : Doc) (h : (lookup k d).isSome) :
    lookup k (replace k v d) = some v := by
  induction d with
  | nil => simp [lookup] at h
  | cons p rest ih =>
    obtain ⟨k', v'⟩ := p
    by_cases hk : k' = k
    · simp [replace, lookup, hk]
    · simp only [lookup, hk, if_false] at h
      simp [replace, lookup, hk, ih h]

theorem lookup_append (k : String) (d e : Doc) :
    lookup k (d ++ e) =
      match lookup k d with
      | some v => some v
      | none => lookup k e := by
  induction d with
  | nil => simp [lookup]
  | cons p rest ih =>
    obtain ⟨k', v'⟩ := p
    by_cases hk : k' = k
    · simp [lookup, hk]
    · simp [lookup, hk, ih]

/-- Reading a path depends on the document only through its first field. -/
theorem getPath_congr {a : String} (q : List String) {d d' : Doc}
    (h : lookup a d' = lookup a d) : getPath (a :: q) d' = getPath (a :: q) d := by
  cases q with
  | nil => simpa [getPath] using h
  | cons a2 q' => simp [getPath, h]

theorem getPath_nest_diverges (p q : List String) (k : String) (v : BVal)
    (h : diverges q (k :: p) = true) : getPath q [(k, nest p v)] = none := by
  induction p generalizing q k with
  | nil =>
    cases q with
    | nil => simp [diverges] at h
    | cons a q' =>
      have hak : ¬ k = a := by
        intro hk; subst hk; cases q' <;> simp [diverges] at h
      cases q' <;> simp [getPath, lookup, hak]
  | cons k2 p' ih =>
    cases q with
    | nil => simp [diverges] at h
    | cons a q' =>
      by_cases hak : k = a
      · subst hak
        cases q' with
        | nil => simp [diverges] at h
        | cons a2 q'' =>
          have h' : diverges (a2 :: q'') (k2 :: p') = true := by
            simpa [diverges] using h
          simpa [getPath, lookup, nest] using ih (a2 :: q'') k2 h'
      · cases q' <;> simp [getPath, lookup, hak]

/-- Frame of `$set`: a path that leaves the updated path reads the same value
before and after. -/
theorem setPath_frame (p q : List String) (v : BVal) (d d' : Doc)
    (hset : setPath p v d = some d') (hdiv : diverges q p = true) :
    getPath q d' = getPath q d := by
  induction p generalizing q d d' with
  | nil => simp [setPath] at hset
  | cons k p' ih =>
    cases q with
    | nil => simp [diverges] at hdiv
    | cons a q' =>
      by_cases hak : a = k
      · subst hak
        cases p' with
        | nil => cases q' <;> simp [diverges] at hdiv
        | cons k2 p'' =>
          cases q' with
          | nil => simp [diverges] at hdiv
          | cons a2 q'' =>
            have hdiv' : diverges (a2 :: q'') (k2 :: p'') = true := by
              simpa [diverges] using hdiv
            cases hl : lookup a d with
            | none =>
              simp only [setPath, hl, Option.some.injEq] at hset
              subst hset
              have hl' : lookup a (d ++ [(a, nest (k2 :: p'') v)])
                  = some (.doc [(k2, nest p'' v)]) := by
                rw [lookup_append, hl]; simp [lookup, nest]
              simp only [getPath, hl, hl']
              exact getPath_nest_diverges p'' (a2 :: q'') k2 v hdiv'
            | some x =>
              cases x with
              | doc sub =>
                simp only [setPath, hl, Option.map_eq_some'] at hset
                obtain ⟨sub', hsub, hd'⟩ := hset
                subst hd'
                have hl' : lookup a (replace a (.doc sub') d) = some (.doc sub') :=
                  lookup_replace_self _ _ (by simp [hl])
                simp only [getPath, hl, hl']
                exact ih (a2 :: q'') sub sub' hsub hdiv'
              | _ => simp [setPath, hl] at hset
      · have hlk : lookup a d' = lookup a d := by
          cases p' with
          | nil =>
            cases hl : lookup k d with
            | none =>
              simp only [setPath, hl, Option.some.injEq] at hset
              subst hset
              rw [lookup_append]
              cases lookup a d <;> simp [lookup, hak, Ne.symm hak]
            | some x =>
              simp only [setPath, hl, Option.some.injEq] at hset
              subst hset
              exact lookup_replace_ne _ _ hak
          | cons k2 p'' =>
            cases hl : lookup k d with
            | none =>
              simp only [setPath, hl, Option.some.injEq] at hset
              subst hset
              rw [lookup_append]
              cases lookup a d <;> simp [lookup, hak, Ne.symm hak]
            | some x =>
              cases x with
              | doc sub =>
                simp only [setPath, hl, Option.map_eq_some'] at hset
                obtain ⟨sub', _, hd'⟩ := hset
                subst hd'
                exact lookup_replace_ne _ _ hak
              | _ => simp [setPath, hl] at hset
        exact getPath_congr q' hlk

/-- The store after `UpdateOne`, record by record: paths that leave the updated
path read the same value. -/
theorem storeUpdateOne_frame (id key link : String) (store store' : List Doc) (n : Nat)
    (h : storeUpdateOne id key link store = some (n, store')) :
    List.Forall₂ (fun d d' => ∀ q, diverges q (fieldPath key) = true →
      getPath q d' = getPath q d) store store' := by
  induction store generalizing n store' with
  | nil =>
    simp only [storeUpdateOne, Option.some.injEq, Prod.mk.injEq] at h
    rw [← h.2]
    exact List.Forall₂.nil
  | cons d rest ih =>
    unfold storeUpdateOne at h
    by_cases hid : hasID id d = true
    · by_cases hh : holds (fieldPath key) link d = true
      · simp only [hid, hh, if_true, Option.some.injEq, Prod.mk.injEq] at h
        rw [← h.2]
        exact List.Forall₂.cons (fun _ _ => rfl) (List.forall₂_same.mpr fun _ _ _ _ => rfl)
      · simp only [hid, hh, if_true, if_false, Bool.false_eq_true, Option.map_eq_some',
          Prod.mk.injEq] at h
        obtain ⟨d', hset, _, hstore⟩ := h
        rw [← hstore]
        exact List.Forall₂.cons (fun q hq => setPath_frame _ q _ d d' hset hq)
          (List.forall₂_same.mpr fun _ _ _ _ => rfl)
    · simp only [hid, if_false, Bool.false_eq_true, Option.map_eq_some', Prod.mk.injEq] at h
      obtain ⟨r, hr, _, hstore⟩ := h
      rw [← hstore]
      exact List.Forall₂.cons (fun _ _ => rfl) (ih r.2 r.1 hr)

/-- Every update issued by the shared part is the `$set` of the variant. -/
theorem session_update_event (v : Variant) (mongoURI : String) (f : Faults)
    (store : List Doc) (slug link : String) (pre : List Out) (flt upd : Doc)
    (h : Event.updateOne flt upd ∈ (session v mongoURI f store slug link pre).trace) :
    upd = setUpdate v.key link := by
  revert h
  simp only [session]
  repeat' split
  all_goals simp_all

theorem validLanguages_mem {language langName : String}
    (h : envLookup language UpdateRegionalYoutube.validLanguages = some langName) :
    language ∈ ["te", "as", "kok", "gu", "ml", "mr", "mni", "lus", "or", "pa", "ta", "bn",
      "ks", "kn"] :=
  (envLookup_isSome_iff language UpdateRegionalYoutube.validLanguages).mp ⟨langName, h⟩

theorem fieldPath_videoKey {language langName : String}
    (h : envLookup language UpdateRegionalYoutube.validLanguages = some langName) :
    fieldPath (UpdateRegionalYoutube.videoKey language) = ["data", language, "media", "video"] := by
  have hm := validLanguages_mem h
  simp only [List.mem_cons, List.mem_singleton, List.not_mem_nil, or_false] at hm
  rcases hm with h | h | h | h | h | h | h | h | h | h | h | h | h | h <;> subst h <;> rfl

/-- C10. The update document.  Every `UpdateOne` issued by the application-link
program carries exactly one `$set` with the single entry
`data.en.application_link.value` bound to the second argument unchanged; every
one issued by the regional program carries exactly one `$set` with the single
entry `data.<language>.media.video` bound to the third argument unchanged, the
language being the first argument.  The store reads these keys as the four
components data, en, application_link, value, and data, language, media,
video for every language of `validLanguages`; and in every record of the
store, every path that leaves the updated path reads the same value after the
update as before. -/
theorem update_document :
    (∀ (w : World) (args : List String) (flt upd : Doc),
      Event.updateOne flt upd ∈ (UpdateApplicationLink.main w args).trace →
      upd = [("$set", .doc [("data.en.application_link.value", .str (args.getD 1 ""))])]) ∧
    (∀ (w : World) (args : List String) (flt upd : Doc),
      Event.updateOne flt upd ∈ (UpdateRegionalYoutube.main w args).trace →
      upd = [("$set", .doc [("data." ++ args.getD 0 "" ++ ".media.video",
          .str (args.getD 2 ""))])] ∧
      fieldPath ("data." ++ args.getD 0 "" ++ ".media.video")
        = ["data", args.getD 0 "", "media", "video"]) ∧
    fieldPath "data.en.application_link.value" = ["data", "en", "application_link", "value"] ∧
    (∀ language langName : String,
      envLookup language UpdateRegionalYoutube.validLanguages = some langName →
      fieldPath ("data." ++ language ++ ".media.video") = ["data", language, "media", "video"]) ∧
    (∀ (id key link : String) (store store' : List Doc) (n : Nat),
      storeUpdateOne id key link store = some (n, store') →
      List.Forall₂ (fun d d' => ∀ q, diverges q (fieldPath key) = true →
        getPath q d' = getPath q d) store store') := by
  refine ⟨?_, ?_, rfl, fun language langName h => fieldPath_videoKey h,
    storeUpdateOne_frame⟩
  · intro w args flt upd h
    rcases appMain_exit_or_session w args with ⟨ht, _, _⟩ | ⟨mongoURI, _, _, _, _, hrun⟩
    · rw [ht] at h
      simp at h
    · rw [hrun] at h
      exact session_update_event _ _ _ _ _ _ _ flt upd h
  · intro w args flt upd h
    rcases regionalMain_exit_or_session w args with
      ⟨ht, _, _⟩ | ⟨mongoURI, langName, _, _, hlang, _, _, hrun⟩
    · rw [ht] at h
      simp at h
    · rw [hrun] at h
      exact ⟨session_update_event _ _ _ _ _ _ _ flt upd h, fieldPath_videoKey hlang⟩

/-- The language `ta` passes validation and its key has the four components;
the update issued in the sample world for `fpktnk.json` is the single `$set`
of the new link. -/
theorem update_document_witness :
    fieldPath ("data." ++ "ta" ++ ".media.video") = ["data", "ta", "media", "video"] ∧
    ∀ flt upd : Doc,
      Event.updateOne flt upd ∈
        (UpdateApplicationLink.main Sample.world
          ["fpktnk.json", "https://new-link.com"]).trace →
      upd = [("$set", .doc [("data.en.application_link.value",
        .str "https://new-link.com")])] :=
  ⟨update_document.2.2.2.1 "ta" "Tamil" rfl,
    fun flt upd h =>
      update_document.1 Sample.world ["fpktnk.json", "https://new-link.com"] flt upd h⟩

/-! ## Running twice -/

theorem getPath_nest (k : String) (ks : List String) (v : BVal) :
    getPath (k :: ks) [(k, nest ks v)] = some v := by
  induction ks generalizing k with
  | nil => simp [getPath, lookup, nest]
  | cons k2 ks ih => simpa [getPath, lookup, nest] using ih k2

/-- After `$set`, the path holds the value. -/
theorem getPath_setPath (p : List String) (v : BVal) (d d' : Doc)
    (h : setPath p v d = some d') : getPath p d' = some v := by
  induction p generalizing d d' with
  | nil => simp [setPath] at h
  | cons k p' ih =>
    cases p' with
    | nil =>
      cases hl : lookup k d with
      | none =>
        simp only [setPath, hl, Option.some.injEq] at h
        subst h
        simp [getPath, lookup_append, hl, lookup]
      | some x =>
        simp only [setPath, hl, Option.some.injEq] at h
        subst h
        simpa [getPath] using lookup_replace_self v d (by simp [hl])
    | cons k2 p'' =>
      cases hl : lookup k d with
      | none =>
        simp only [setPath, hl, Option.some.injEq] at h
        subst h
        have hl' : lookup k (d ++ [(k, nest (k2 :: p'') v)])
            = some (.doc [(k2, nest p'' v)]) := by
          rw [lookup_append, hl]; simp [lookup, nest]
        simp only [getPath, hl']
        exact getPath_nest k2 p'' v
      | some x =>
        cases x with
        | doc sub =>
          simp only [setPath, hl, Option.map_eq_some'] at h
          obtain ⟨sub', hsub, hd'⟩ := h
          subst hd'
          have hl' : lookup k (replace k (.doc sub') d) = some (.doc sub') :=
            lookup_replace_self _ _ (by simp [hl])
          simp only [getPath, hl']
          exact ih sub sub' hsub
        | _ => simp [setPath, hl] at h


theorem sameOutsideData_of_frame {p : List String} {d d' : Doc}
    (h : ∀ q, diverges q ("data" :: p) = true → getPath q d' = getPath q d) :
    SameOutsideData d d' := by
  intro k hk
  have := h [k] (by simp [diverges, hk])
  simpa [getPath] using this

theorem SameOutsideData.hasID {d d' : Doc} (h : SameOutsideData d d') (id : String) :
    hasID id d' = hasID id d := by
  simp [GoScripts.hasID, h "_id" (by decide)]

theorem SameOutsideData.matchesSlug {d d' : Doc} (h : SameOutsideData d d') (slug : String) :
    matchesSlug slug d' = matchesSlug slug d := by
  simp [GoScripts.matchesSlug, fieldMatches, h "filter" (by decide), h "slug" (by decide)]

theorem forall₂_filter {R : Doc → Doc → Prop} {p : Doc → Bool} {l l' : List Doc}
    (h : List.Forall₂ R l l') (hp : ∀ d d', R d d' → p d' = p d) :
    List.Forall₂ R (l.filter p) (l'.filter p) := by
  induction l generalizing l' with
  | nil => cases h; exact List.Forall₂.nil
  | cons a l ih =>
    cases h with
    | cons hab htl =>
      rename_i b l2
      have hpb := hp a b hab
      cases hpa : p a
      · rw [List.filter_cons_of_neg (by simp [hpa]),
          List.filter_cons_of_neg (by simp [hpb, hpa])]
        exact ih htl
      · rw [List.filter_cons_of_pos (by simp [hpa]),
          List.filter_cons_of_pos (by simp [hpb, hpa])]
        exact List.Forall₂.cons hab (ih htl)

theorem findPriority_same {l l' : List Doc} (h : List.Forall₂ SameOutsideData l l') :
    (∀ t, findPriority l = some t →
      ∃ t', findPriority l' = some t' ∧ SameOutsideData t t') ∧
    (findPriority l = none → findPriority l' = none) := by
  induction l generalizing l' with
  | nil => cases h; simp [findPriority]
  | cons a l ih =>
    cases h with
    | cons hab htl =>
      rename_i b l2
      have hpb := hab.hasID priorityID
      cases hpa : hasID priorityID a
      · simpa [findPriority, hpa, hpb] using ih htl
      · simpa [findPriority, hpa, hpb] using hab

theorem selectTarget_same {l l' : List Doc} (h : List.Forall₂ SameOutsideData l l')
    {t : Doc} (ht : selectTarget l = some t) :
    ∃ t', selectTarget l' = some t' ∧ lookup "_id" t' = lookup "_id" t := by
  have hf := findPriority_same h
  unfold selectTarget at ht ⊢
  cases hp : findPriority l with
  | some t0 =>
    obtain ⟨t', ht', hs⟩ := hf.1 t0 hp
    simp only [hp, Option.some.injEq] at ht
    subst ht
    exact ⟨t', by simp [ht'], hs "_id" (by decide)⟩
  | none =>
    simp only [hp] at ht
    cases h with
    | nil => simp at ht
    | cons hab htl =>
      rename_i a b l1 l2
      simp only [List.head?_cons, Option.some.injEq] at ht
      subst ht
      have hn := hf.2 hp
      exact ⟨b, by simp [hn], hab "_id" (by decide)⟩

theorem storeUpdateOne_sameOutside {id key link : String} {store store' : List Doc} {n : Nat}
    {rest : List String} (hkey : fieldPath key = "data" :: rest)
    (h : storeUpdateOne id key link store = some (n, store')) :
    List.Forall₂ SameOutsideData store store' := by
  have hf := storeUpdateOne_frame id key link store store' n h
  rw [hkey] at hf
  exact hf.imp fun _ _ hq => sameOutsideData_of_frame hq

theorem holds_of_setPath {p : List String} {link : String} {d d' : Doc}
    (h : setPath p (.str link) d = some d') : holds p link d' = true := by
  simp [holds, getPath_setPath p _ d d' h]

/-- A second `UpdateOne` with the same arguments modifies nothing. -/
theorem storeUpdateOne_again {id key link : String} {store store' : List Doc} {n : Nat}
    {rest : List String} (hkey : fieldPath key = "data" :: rest)
    (h : storeUpdateOne id key link store = some (n, store')) :
    storeUpdateOne id key link store' = some (0, store') := by
  induction store generalizing n store' with
  | nil =>
    simp only [storeUpdateOne, Option.some.injEq, Prod.mk.injEq] at h
    rw [← h.2]
    rfl
  | cons d tl ih =>
    unfold storeUpdateOne at h
    by_cases hid : hasID id d = true
    · by_cases hh : holds (fieldPath key) link d = true
      · simp only [hid, hh, if_true, Option.some.injEq, Prod.mk.injEq] at h
        rw [← h.2]
        simp [storeUpdateOne, hid, hh]
      · simp only [hid, hh, if_true, if_false, Bool.false_eq_true, Option.map_eq_some',
          Prod.mk.injEq] at h
        obtain ⟨d', hset, _, hstore⟩ := h
        rw [← hstore]
        have hsame : SameOutsideData d d' := by
          apply @sameOutsideData_of_frame rest
          intro q hq
          exact setPath_frame _ q _ d d' hset (hkey ▸ hq)
        simp [storeUpdateOne, hsame.hasID id, hid, holds_of_setPath hset]
    · simp only [hid, if_false, Bool.false_eq_true, Option.map_eq_some', Prod.mk.injEq] at h
      obtain ⟨r, hr, _, hstore⟩ := h
      rw [← hstore]
      simp [storeUpdateOne, hid, ih hr]

/-- After `UpdateOne`, the record fetched under the identifier holds the
value. -/
theorem storeFindOne_holds {id key link : String} {store store' : List Doc} {n : Nat}
    {rest : List String} {d' : Doc} (hkey : fieldPath key = "data" :: rest)
    (h : storeUpdateOne id key link store = some (n, store'))
    (hfetch : storeFindOne id store' = some d') :
    holds (fieldPath key) link d' = true := by
  induction store generalizing n store' with
  | nil =>
    simp only [storeUpdateOne, Option.some.injEq, Prod.mk.injEq] at h
    rw [← h.2] at hfetch
    simp [storeFindOne] at hfetch
  | cons d tl ih =>
    unfold storeUpdateOne at h
    by_cases hid : hasID id d = true
    · by_cases hh : holds (fieldPath key) link d = true
      · simp only [hid, hh, if_true, Option.some.injEq, Prod.mk.injEq] at h
        rw [← h.2] at hfetch
        simp only [storeFindOne, List.find?, hid, Option.some.injEq] at hfetch
        rw [← hfetch]
        exact hh
      · simp only [hid, hh, if_true, if_false, Bool.false_eq_true, Option.map_eq_some',
          Prod.mk.injEq] at h
        obtain ⟨d1, hset, _, hstore⟩ := h
        rw [← hstore] at hfetch
        have hsame : SameOutsideData d d1 := by
          apply @sameOutsideData_of_frame rest
          intro q hq
          exact setPath_frame _ q _ d d1 hset (hkey ▸ hq)
        simp only [storeFindOne, List.find?, hsame.hasID id, hid, Option.some.injEq] at hfetch
        rw [← hfetch]
        exact holds_of_setPath hset
    · simp only [hid, if_false, Bool.false_eq_true, Option.map_eq_some', Prod.mk.injEq] at h
      obtain ⟨r, hr, _, hstore⟩ := h
      rw [← hstore] at hfetch
      have hid' : hasID id d = false := by simpa using hid
      simp only [storeFindOne, List.find?, hid'] at hfetch
      exact ih hr hfetch

theorem getPath_four {a b c e : String} {d : Doc} {v : BVal}
    (h : getPath [a, b, c, e] d = some v) :
    ∃ d1 d2 d3, lookup a d = some (.doc d1) ∧ lookup b d1 = some (.doc d2) ∧
      lookup c d2 = some (.doc d3) ∧ lookup e d3 = some v := by
  simp only [getPath] at h
  split at h
  · next d1 h1 =>
    split at h
    · next d2 h2 =>
      split at h
      · next d3 h3 => exact ⟨d1, d2, d3, h1, h2, h3, h⟩
      · cases h
    · cases h
  · cases h

theorem verifyRead_of_holds {k2 k3 k4 link : String} {d : Doc}
    (h : holds ["data", k2, k3, k4] link d = true) : verifyRead k2 k3 k4 d = link := by
  unfold holds at h
  split at h
  · next s hs =>
    obtain ⟨d1, d2, d3, h1, h2, h3, h4⟩ := getPath_four hs
    rw [verifyRead_found h1 h2 h3 h4]
    simpa using h
  · cases h

/-- Idempotence of the shared part: when a run that found a document ends with
status 0, the same run on the store it leaves behind reports no change, leaves
the store as it is, and prints the link as the verified value. -/
theorem session_idempotent (v : Variant) (mongoURI : String) (f : Faults)
    (store : List Doc) (slug link : String) (pre : List Out)
    (hkey : fieldPath v.key = ["data", v.k2, v.k3, v.k4])
    (hne : (storeFind slug store).length ≠ 0)
    (h0 : (session v mongoURI f store slug link pre).status = 0) :
    ∃ id,
      session v mongoURI f (session v mongoURI f store slug link pre).store slug link pre =
        ⟨pre ++ [.print "Connected to MongoDB",
            .print ("Found " ++ toString (storeFind slug store).length
              ++ " document(s) with slug: " ++ slug)]
          ++ [.print ("Selected document with ID: " ++ id),
            .print ("Applying update: " ++ showUpdate v.key link)]
          ++ [.print "Document found but no changes were made"]
          ++ [.print v.heading, .print (v.label ++ link)]
          ++ deferredClose f,
         [.connect mongoURI, .find (slugFilter slug), .cursorAll]
          ++ [.updateOne (idFilter id) (setUpdate v.key link)]
          ++ [.findOne (idFilter id)] ++ [.cursorClose, .disconnect],
         0, (session v mongoURI f store slug link pre).store⟩ := by
  obtain ⟨t, id, n, store', d', hc, hf, hd, hsel, hid, hu, hup, hfo, hfind⟩ :=
    session_status_zero hne h0
  have hrun := @session_success v mongoURI f store slug link pre t id n store' d'
    hc hf hd hne hsel hid hu hup hfo hfind
  have hsame := storeUpdateOne_sameOutside hkey hup
  have hfound : List.Forall₂ SameOutsideData (storeFind slug store) (storeFind slug store') :=
    forall₂_filter hsame fun d d' h => h.matchesSlug slug
  have hlen : (storeFind slug store').length = (storeFind slug store).length :=
    hfound.length_eq.symm
  obtain ⟨t', hsel', hid'⟩ := selectTarget_same hfound hsel
  have hagain := storeUpdateOne_again hkey hup
  have hholds := storeFindOne_holds hkey hup hfind
  rw [hkey] at hholds
  have hread := verifyRead_of_holds hholds
  refine ⟨id, ?_⟩
  have hrun2 := @session_success v mongoURI f store' slug link pre t' id 0 store' d'
    hc hf hd (by rw [hlen]; exact hne) hsel' (by rw [hid', hid]) hu hagain hfo hfind
  rw [hrun]
  simp only []
  rw [hrun2, hlen, hread]
  simp

/-- C5, as stated, fails: a first run that does not get through leaves nothing
for the second run to confirm.  The record with slug `objid.json` has an object
identifier, so the application-link program ends at the type assertion with
status 2, twice; the record with slug `flat.json` has a string under `data`, so
the store rejects the update of the regional program and the run ends in a
fatal log, twice.  Neither second run reports that no changes were made. -/
theorem second_run_after_failed_first :
    (storeFind "objid.json" Sample.world.store).length = 1 ∧
    (UpdateApplicationLink.main Sample.world ["objid.json", "https://new-link.com"]).status = 2 ∧
    Out.print "Document found but no changes were made" ∉
      (UpdateApplicationLink.main
        ⟨Sample.world.envFile, Sample.world.environ, Sample.world.faults,
          (UpdateApplicationLink.main Sample.world ["objid.json", "https://new-link.com"]).store⟩
        ["objid.json", "https://new-link.com"]).out ∧
    (storeFind "flat.json" Sample.world.store).length = 1 ∧
    (UpdateRegionalYoutube.main Sample.world
      ["ta", "flat.json", "https://www.youtube.com/watch?v=example"]).status = 1 ∧
    Out.print "Document found but no changes were made" ∉
      (UpdateRegionalYoutube.main
        ⟨Sample.world.envFile, Sample.world.environ, Sample.world.faults,
          (UpdateRegionalYoutube.main Sample.world
            ["ta", "flat.json", "https://www.youtube.com/watch?v=example"]).store⟩
        ["ta", "flat.json", "https://www.youtube.com/watch?v=example"]).out := by
  refine ⟨rfl, rfl, ?_, rfl, rfl, ?_⟩
  · decide
  · decide

/-- C5, amended. Both programs, over the store in which `UpdateOne` leaves a
field alone that already holds the value: when the slug has at least one match
and a run ends with status 0, the same run started again on the store it left
behind reports "Document found but no changes were made", leaves the store
equal to the store after the first run, prints the supplied link as the
verified value, and ends with status 0. -/
theorem update_idempotent (w : World) (args : List String) :
    ((storeFind (args.getD 0 "") w.store).length ≠ 0 →
      (UpdateApplicationLink.main w args).status = 0 →
      Out.print "Document found but no changes were made" ∈
        (UpdateApplicationLink.main
          ⟨w.envFile, w.environ, w.faults, (UpdateApplicationLink.main w args).store⟩ args).out ∧
      (UpdateApplicationLink.main
          ⟨w.envFile, w.environ, w.faults, (UpdateApplicationLink.main w args).store⟩
          args).store = (UpdateApplicationLink.main w args).store ∧
      Out.print ("en.application_link.value: " ++ args.getD 1 "") ∈
        (UpdateApplicationLink.main
          ⟨w.envFile, w.environ, w.faults, (UpdateApplicationLink.main w args).store⟩ args).out ∧
      (UpdateApplicationLink.main
          ⟨w.envFile, w.environ, w.faults, (UpdateApplicationLink.main w args).store⟩
          args).status = 0) ∧
    ((storeFind (args.getD 1 "") w.store).length ≠ 0 →
      (UpdateRegionalYoutube.main w args).status = 0 →
      Out.print "Document found but no changes were made" ∈
        (UpdateRegionalYoutube.main
          ⟨w.envFile, w.environ, w.faults, (UpdateRegionalYoutube.main w args).store⟩ args).out ∧
      (UpdateRegionalYoutube.main
          ⟨w.envFile, w.environ, w.faults, (UpdateRegionalYoutube.main w args).store⟩
          args).store = (UpdateRegionalYoutube.main w args).store ∧
      Out.print (args.getD 0 "" ++ ".media.video: " ++ args.getD 2 "") ∈
        (UpdateRegionalYoutube.main
          ⟨w.envFile, w.environ, w.faults, (UpdateRegionalYoutube.main w args).store⟩ args).out ∧
      (UpdateRegionalYoutube.main
          ⟨w.envFile, w.environ, w.faults, (UpdateRegionalYoutube.main w args).store⟩
          args).status = 0) := by
  constructor
  · intro hne h0
    rcases appMain_exit_or_session w args with ⟨_, hs, _⟩ | ⟨mongoURI, hcfg, hw, hslug, hlink, hrun⟩
    · rw [hs] at h0; cases h0
    · rw [hrun] at h0 ⊢
      obtain ⟨id, hsecond⟩ := session_idempotent UpdateApplicationLink.variant mongoURI w.faults
        w.store (args.getD 0 "") (args.getD 1 "") _ rfl hne h0
      have hcfg2 : loadConfig ⟨w.envFile, w.environ, w.faults,
          (session UpdateApplicationLink.variant mongoURI w.faults w.store
            (args.getD 0 "") (args.getD 1 "")
            [.print ("Processing slug: " ++ args.getD 0 ""),
             .print ("New application link: " ++ args.getD 1 "")]).store⟩ = .ok mongoURI := hcfg
      rw [appMain_of_config hcfg2, appMainArgs_session hw hslug hlink]
      simp only []
      rw [hsecond]
      simp [UpdateApplicationLink.variant]
  · intro hne h0
    rcases regionalMain_exit_or_session w args with
      ⟨_, hs, _⟩ | ⟨mongoURI, langName, hcfg, hw, hlang, hslug, hlink, hrun⟩
    · rw [hs] at h0; cases h0
    · rw [hrun] at h0 ⊢
      obtain ⟨id, hsecond⟩ := session_idempotent
        (UpdateRegionalYoutube.variant (args.getD 0 "")) mongoURI w.faults
        w.store (args.getD 1 "") (args.getD 2 "") _ (fieldPath_videoKey hlang) hne h0
      have hcfg2 : loadConfig ⟨w.envFile, w.environ, w.faults,
          (session (UpdateRegionalYoutube.variant (args.getD 0 "")) mongoURI w.faults w.store
            (args.getD 1 "") (args.getD 2 "")
            [.print ("Processing language: " ++ args.getD 0 "" ++ " (" ++ langName ++ ")"),
             .print ("Processing slug: " ++ args.getD 1 ""),
             .print ("New YouTube link: " ++ args.getD 2 "")]).store⟩ = .ok mongoURI := hcfg
      rw [regionalMain_of_config hcfg2, regionalMainArgs_session hw hlang hslug hlink]
      simp only []
      rw [hsecond]
      simp [UpdateRegionalYoutube.variant]


/-- In the sample world the record with slug `fpktnk.json` is updated by a
first run of either program, and a second run reports no change. -/
theorem update_idempotent_witness :
    Out.print "Document found but no changes were made" ∈
      (UpdateApplicationLink.main
        ⟨Sample.world.envFile, Sample.world.environ, Sample.world.faults,
          (UpdateApplicationLink.main Sample.world
            ["fpktnk.json", "https://new-link.com"]).store⟩
        ["fpktnk.json", "https://new-link.com"]).out ∧
    Out.print "Document found but no changes were made" ∈
      (UpdateRegionalYoutube.main
        ⟨Sample.world.envFile, Sample.world.environ, Sample.world.faults,
          (UpdateRegionalYoutube.main Sample.world
            ["ta", "fpktnk.json", "https://www.youtube.com/watch?v=example"]).store⟩
        ["ta", "fpktnk.json", "https://www.youtube.com/watch?v=example"]).out :=
  ⟨((update_idempotent Sample.world ["fpktnk.json", "https://new-link.com"]).1
      (by decide) rfl).1,
    ((update_idempotent Sample.world
      ["ta", "fpktnk.json", "https://www.youtube.com/watch?v=example"]).2
      (by decide) rfl).1⟩

end GoScripts
